import Mathlib

/-! # OpenCL CPU adapter layer accelerator

A shallow embedding of `source/tnn/device/opencl/acc/opencl_cpu_adapter_acc.cc`
and the properties of it that the specification states.

The adapter is a class whose methods call into collaborators that live in other
translation units (the device registry, the substitute layer accelerator, the
blob converter, the layout transforms).  Those collaborators are parameters of
the embedding (`Collaborators`): each is an arbitrary function on an abstract
world state `W`, so every theorem holds for every behaviour they can have.

Conventions of the embedding:

* A pointer that may be null is an `Option`.
* Indexing a `std::vector` out of range, dereferencing a null pointer and
  reading a member that was never assigned are undefined behaviour; a method
  whose execution reaches one of them returns `none`.
* A `const std::vector<Blob *> &` argument lets the callee write through every
  pointer but not resize or reorder the vector; what a callee did to the blobs
  is therefore a rewrite of each pointee (`AccEffect`).
* The blobs a caller passes are distinct objects: no blob pointer occurs twice
  in or across the two lists of a call, so a list of blob pointers is a list of
  blob values and a write to one entry is not seen through another entry.
* Tensor contents (the floats behind a handle) are part of the world state and
  are not inspected.
-/

namespace TNN

/-! ## Types declared in headers -/

/-- Modelled from the spec: the enumeration `DeviceType` of backend domains, whose
declaration is in a header outside the sources.  The source names `DEVICE_ARM`
and `DEVICE_NAIVE`; every other identifier is `DEVICE_OTHER`. -/
inductive DeviceType where
  | DEVICE_NAIVE
  | DEVICE_ARM
  | DEVICE_OTHER (id : Nat)
  deriving DecidableEq, Repr

/-- Modelled from the spec: the enumeration `DataFormat` of memory layouts, whose
declaration is in a header outside the sources.  The source names
`DATA_FORMAT_AUTO` (the unresolved sentinel), `DATA_FORMAT_NCHW` (the canonical
planar layout) and `DATA_FORMAT_NHC4W4` (a packed layout); every other layout
is `DATA_FORMAT_OTHER`. -/
inductive DataFormat where
  | DATA_FORMAT_AUTO
  | DATA_FORMAT_NCHW
  | DATA_FORMAT_NHC4W4
  | DATA_FORMAT_OTHER (id : Nat)
  deriving DecidableEq, Repr

/-- Modelled from the spec: the enumeration `MatType` of element layouts of a host
view, whose declaration is in a header outside the sources; the source only
uses `NCHW_FLOAT`. -/
inductive MatType where
  | NCHW_FLOAT
  | MAT_OTHER (id : Nat)
  deriving DecidableEq, Repr

/-- Modelled from the spec: the status codes, whose declaration is in a header
outside the sources.  The source names `TNN_OK`, `TNNERR_NULL_PARAM` and
`TNNERR_OPENCL_ACC_INIT_ERROR`, taken to be three different codes; every other
code is `TNNERR_OTHER`. -/
inductive StatusCode where
  | TNN_OK
  | TNNERR_NULL_PARAM
  | TNNERR_OPENCL_ACC_INIT_ERROR
  | TNNERR_OTHER (code : Nat)
  deriving DecidableEq, Repr

/-- Modelled from the spec: the class `Status` (declared in a header outside the
sources), a code and a message. -/
structure Status where
  code : StatusCode
  message : String
  deriving DecidableEq, Repr

/-- Modelled from the spec: the status built by `return TNN_OK;`.  Its message is
the default of the `Status` constructor, which a header outside the sources
declares; it is taken to be empty. -/
def Status.OK : Status := { code := StatusCode.TNN_OK, message := "" }

abbrev LayerType := Nat
abbrev DataType := Nat
abbrev LayerParam := Nat
abbrev LayerResource := Nat
abbrev DimsVector := List Int

/-- Modelled from the spec: the tensor descriptor `BlobDesc` (declared in a header
outside the sources): device domain, layout and dims, which the source reads
and writes, and the value type and name, which it copies. -/
structure BlobDesc where
  device_type : DeviceType
  data_type : DataType
  data_format : DataFormat
  dims : DimsVector
  name : String
  deriving DecidableEq, Repr

/-- Modelled from the spec: the memory handle of a blob (declared in a header
outside the sources); the source reads its `base`. -/
structure BlobHandle where
  base : Nat
  bytes_offset : Nat
  deriving DecidableEq, Repr

/-- Modelled from the spec: the class `Blob` (declared in a header outside the
sources), a tensor descriptor plus a memory handle. -/
structure Blob where
  desc : BlobDesc
  handle : BlobHandle
  deriving DecidableEq, Repr

/-- Modelled from the spec: the class `OpenCLContext` (declared in a header outside
the sources), the context of the accelerator domain; `GetCommandQueue` reads
its command queue. -/
structure OpenCLContext where
  command_queue : Nat
  deriving DecidableEq, Repr

/-- Modelled from the spec: the objects a `Context *` can point to (the class
hierarchy is declared in headers outside the sources): an `OpenCLContext` or a
context of another concrete class. -/
inductive Context where
  | opencl (c : OpenCLContext)
  | foreign (id : Nat)
  deriving DecidableEq, Repr

/-- The cast `dynamic_cast<OpenCLContext *>(context)`: null for a null pointer and
for an object of another class. -/
def dynamic_cast_OpenCLContext : Option Context → Option OpenCLContext
  | some (Context.opencl c) => some c
  | _ => none

/-- Where the floats of a `Mat` live: in memory the caller handed to the
constructor (`base`), or in a buffer the `Mat` allocated for itself. -/
inductive Buffer where
  | mem (base : Nat)
  | scratch
  deriving DecidableEq, Repr

/-- Modelled from the spec: the host tensor view `Mat` (declared in a header
outside the sources), with the four arguments the source passes to its
constructor. -/
structure Mat where
  device_type : DeviceType
  mat_type : MatType
  dims : DimsVector
  data : Buffer
  deriving DecidableEq, Repr

/-- The calls the adapter issues to its collaborators, in the order issued. -/
inductive Call where
  | GetDevice (device_type : DeviceType)
  | CreateLayerAcc (device_type : DeviceType) (layer_type : LayerType)
  | CreateContext (device_type : DeviceType) (device_id : Int)
  | AbstractLayerAcc_Init (context : Option Context) (inputs outputs : List Blob)
  | acc_Init (context : Option Context) (inputs outputs : List Blob)
  | acc_Reshape (inputs outputs : List Blob)
  | acc_Forward (inputs outputs : List Blob)
  | ConvertToMat (blob : Blob) (mat : Mat) (command_queue : Nat)
  | ConvertFromMat (blob : Blob) (mat : Mat) (command_queue : Nat)
  | ConvertFromNCHWToNCHW4Float (src dst : Buffer) (n c h w : Int)
  | ConvertFromNCHW4ToNCHWFloat (src dst : Buffer) (n c h w : Int)
  deriving DecidableEq, Repr

/-- What a callee handed two blob vectors left behind: its status and the rewrite
of the blob at each index of the input vector and of the output vector. -/
structure AccEffect where
  status : Status
  onInput : Nat → Blob → Blob
  onOutput : Nat → Blob → Blob

/-- The callee's rewrite applied to a blob vector, index by index. -/
def rewrite (f : Nat → Blob → Blob) : Nat → List Blob → List Blob
  | _, [] => []
  | i, b :: bs => f i b :: rewrite f (i + 1) bs

/-- Modelled from the spec: a device of the registry (`AbstractDevice`, declared in
a header outside the sources) with the two methods the constructor calls. -/
structure AbstractDevice (Acc : Type) where
  CreateLayerAcc : LayerType → Option Acc
  CreateContext : Int → Option Context

/-- The collaborators of the adapter.  `W` is the state of everything outside the
adapter (heap, device memory, the state of the substitute accelerator), `Acc`
the type of layer accelerator objects. -/
structure Collaborators (W Acc : Type) where
  GetDevice : DeviceType → Option (AbstractDevice Acc)
  AbstractLayerAcc_Init :
    W → Option Context → LayerParam → LayerResource → List Blob → List Blob → W × AccEffect
  /-- The allocation done by `new Blob(desc, true)`: the handle of the new blob. -/
  Blob_new : W → BlobDesc → W × BlobHandle
  acc_Init :
    Acc → W → Option Context → LayerParam → LayerResource → List Blob → List Blob → W × AccEffect
  acc_Reshape : Acc → W → List Blob → List Blob → W × AccEffect
  acc_Forward : Acc → W → List Blob → List Blob → W × AccEffect
  ConvertToMat : W → Blob → Mat → Nat → W
  ConvertFromMat : W → Blob → Mat → Nat → W
  ConvertFromNCHWToNCHW4Float : W → Buffer → Buffer → Int → Int → Int → Int → W
  ConvertFromNCHW4ToNCHWFloat : W → Buffer → Buffer → Int → Int → Int → Int → W

/-! ## The adapter -/

/-- Modelled from the spec: the data members of `OpenCLCpuAdapterAcc` (the class
declaration is in a header outside the sources); these are the members the
source file reads and writes. -/
structure OpenCLCpuAdapterAcc (Acc : Type) where
  impl_layer_type_ : LayerType
  impl_device_type_ : Option DeviceType
  impl_device_context_ : Option Context
  cpu_adapter_acc_ : Option Acc
  ocl_context_ : Option OpenCLContext
  cpu_blob_in_ : List Blob
  cpu_blob_out_ : List Blob

/-- Modelled from the spec: the member initialisers of the class declaration
(the header is not part of the sources).  Before the constructor body runs there
is no inner accelerator, no context, and both mirror lists are empty;
`impl_device_type_` has not been assigned. -/
def OpenCLCpuAdapterAcc.fresh (Acc : Type) : OpenCLCpuAdapterAcc Acc :=
  { impl_layer_type_ := 0
    impl_device_type_ := none
    impl_device_context_ := none
    cpu_adapter_acc_ := none
    ocl_context_ := none
    cpu_blob_in_ := []
    cpu_blob_out_ := [] }

/-- The local array `device_list` of the constructor. -/
def device_list : List DeviceType := [DeviceType.DEVICE_ARM, DeviceType.DEVICE_NAIVE]

/-- An adapter together with the calls issued while it was built. -/
structure Construction (Acc : Type) where
  self : OpenCLCpuAdapterAcc Acc
  calls : List Call

/-- The loop `for (auto device_type : device_list)` of the constructor; the third
case of the inner match is the `break`. -/
def construct_loop {W Acc : Type} (env : Collaborators W Acc) :
    List DeviceType → OpenCLCpuAdapterAcc Acc → List Call → Construction Acc
  | [], self, calls => { self := self, calls := calls }
  | device_type :: rest, self, calls =>
    match env.GetDevice device_type with
    | none => construct_loop env rest self (calls ++ [Call.GetDevice device_type])
    | some device =>
      match device.CreateLayerAcc self.impl_layer_type_ with
      | none =>
        construct_loop env rest self
          (calls ++ [Call.GetDevice device_type,
                     Call.CreateLayerAcc device_type self.impl_layer_type_])
      | some acc =>
        { self := { self with
                    cpu_adapter_acc_ := some acc
                    impl_device_type_ := some device_type
                    impl_device_context_ := device.CreateContext 0 }
          calls := calls ++ [Call.GetDevice device_type,
                             Call.CreateLayerAcc device_type self.impl_layer_type_,
                             Call.CreateContext device_type 0] }

/-- The constructor `OpenCLCpuAdapterAcc::OpenCLCpuAdapterAcc(LayerType)`. -/
def OpenCLCpuAdapterAcc.new {W Acc : Type} (env : Collaborators W Acc)
    (impl_layer_type : LayerType) : Construction Acc :=
  construct_loop env device_list
    { OpenCLCpuAdapterAcc.fresh Acc with impl_layer_type_ := impl_layer_type } []

/-- The method `SupportDataFormat(DataType data_type, int dims_size)`. -/
def OpenCLCpuAdapterAcc.SupportDataFormat {Acc : Type} (_self : OpenCLCpuAdapterAcc Acc)
    (_data_type : DataType) (dims_size : Int) : List DataFormat :=
  let support_list : List DataFormat := []
  if dims_size = 4 then support_list ++ [DataFormat.DATA_FORMAT_NHC4W4] else support_list

/-- What a call of `Init`, `Reshape` or `Forward` leaves behind: the returned
status, the adapter, the world, the device blobs the caller passed (they are
passed by pointer) and the calls issued to collaborators. -/
structure CallResult (W Acc : Type) where
  status : Status
  self : OpenCLCpuAdapterAcc Acc
  world : W
  inputs : List Blob
  outputs : List Blob
  calls : List Call

/-- The loop `for (int i = 0; i < v.size(); ++i) body(i)`: `for_loop body n i s`
runs `body` at `i, i + 1, ..., i + n - 1`, threading the state.  The counter is an
`int`; a blob list has fewer than 2^31 entries, so it does not wrap. -/
def for_loop {S : Type} (body : Nat → S → Option S) : Nat → Nat → S → Option S
  | 0, _, s => some s
  | n + 1, i, s => (body i s).bind (for_loop body n (i + 1))

/-- The loops `for (auto input : inputs)` and `for (auto output : outputs)` of
`Init`: one mirror blob is appended per device blob.  The blob built by
`new Blob(desc, true)` carries `desc` and the freshly allocated handle. -/
def init_loop {W Acc : Type} (env : Collaborators W Acc) (impl_device_type_ : Option DeviceType) :
    List Blob → W → List Blob → Option (W × List Blob)
  | [], w, cpu_blob => some (w, cpu_blob)
  | input :: rest, w, cpu_blob =>
    match impl_device_type_ with
    | none => none
    | some device_type =>
      let desc := input.desc
      let desc := { desc with device_type := device_type }
      let desc := { desc with data_format := DataFormat.DATA_FORMAT_AUTO }
      let alloc := env.Blob_new w desc
      init_loop env impl_device_type_ rest alloc.1 (cpu_blob ++ [{ desc := desc, handle := alloc.2 }])

/-- The method `Init`.  The statuses of `AbstractLayerAcc::Init` and of the inner
accelerator are discarded by the source. -/
def OpenCLCpuAdapterAcc.Init {W Acc : Type} (env : Collaborators W Acc)
    (self : OpenCLCpuAdapterAcc Acc) (w : W) (context : Option Context) (param : LayerParam)
    (resource : LayerResource) (inputs outputs : List Blob) : Option (CallResult W Acc) :=
  match self.cpu_adapter_acc_ with
  | none =>
    some { status := { code := StatusCode.TNNERR_OPENCL_ACC_INIT_ERROR,
                       message := "cpu adapter acc is null" }
           self := self, world := w, inputs := inputs, outputs := outputs, calls := [] }
  | some acc =>
    let base := env.AbstractLayerAcc_Init w context param resource inputs outputs
    let inputs1 := rewrite base.2.onInput 0 inputs
    let outputs1 := rewrite base.2.onOutput 0 outputs
    let calls1 := [Call.AbstractLayerAcc_Init context inputs outputs]
    let self1 := { self with ocl_context_ := dynamic_cast_OpenCLContext context }
    match self1.ocl_context_ with
    | none =>
      some { status := { code := StatusCode.TNNERR_NULL_PARAM,
                         message := "OpenCL Context Convert failed" }
             self := self1, world := base.1, inputs := inputs1, outputs := outputs1,
             calls := calls1 }
    | some _ =>
      (init_loop env self1.impl_device_type_ inputs1 base.1 self1.cpu_blob_in_).bind fun r_in =>
      (init_loop env self1.impl_device_type_ outputs1 r_in.1 self1.cpu_blob_out_).bind fun r_out =>
      let inner := env.acc_Init acc r_out.1 self1.impl_device_context_ param resource r_in.2 r_out.2
      some { status := Status.OK
             self := { self1 with
                       cpu_blob_in_ := rewrite inner.2.onInput 0 r_in.2
                       cpu_blob_out_ := rewrite inner.2.onOutput 0 r_out.2 }
             world := inner.1, inputs := inputs1, outputs := outputs1
             calls := calls1 ++ [Call.acc_Init self1.impl_device_context_ r_in.2 r_out.2] }

/-- Writes `dims` into the descriptor of a blob (`blob->GetBlobDesc().dims = dims`). -/
def Blob.set_dims (blob : Blob) (dims : DimsVector) : Blob :=
  { blob with desc := { blob.desc with dims := dims } }

/-- Body of the two loops of `Reshape`: `dst[i]->GetBlobDesc().dims = src[i]->GetBlobDesc().dims`. -/
def reshape_step (src : List Blob) (i : Nat) (dst : List Blob) : Option (List Blob) :=
  (src[i]?).bind fun device_blob =>
  (dst[i]?).bind fun cpu_blob =>
  let dims := device_blob.desc.dims
  some (dst.set i (cpu_blob.set_dims dims))

/-- The method `Reshape`.  The status of the inner accelerator is discarded by the
source. -/
def OpenCLCpuAdapterAcc.Reshape {W Acc : Type} (env : Collaborators W Acc)
    (self : OpenCLCpuAdapterAcc Acc) (w : W) (inputs outputs : List Blob) :
    Option (CallResult W Acc) :=
  (for_loop (reshape_step inputs) inputs.length 0 self.cpu_blob_in_).bind fun cpu_in =>
  (for_loop (reshape_step outputs) outputs.length 0 self.cpu_blob_out_).bind fun cpu_out =>
  (self.cpu_adapter_acc_).bind fun acc =>
  let inner := env.acc_Reshape acc w cpu_in cpu_out
  some { status := Status.OK
         self := { self with
                   cpu_blob_in_ := rewrite inner.2.onInput 0 cpu_in
                   cpu_blob_out_ := rewrite inner.2.onOutput 0 cpu_out }
         world := inner.1, inputs := inputs, outputs := outputs
         calls := [Call.acc_Reshape cpu_in cpu_out] }

/-- The view `Mat(DEVICE_NAIVE, NCHW_FLOAT, dims, data)`; without the last
argument the `Mat` allocates its own buffer. -/
def Mat.naive_nchw_float (dims : DimsVector) (data : Buffer) : Mat :=
  { device_type := DeviceType.DEVICE_NAIVE, mat_type := MatType.NCHW_FLOAT, dims := dims,
    data := data }

/-- State of the loops of `Forward`: the world, the device blobs and the calls
issued so far. -/
structure ForwardState (W : Type) where
  world : W
  blobs : List Blob
  calls : List Call

/-- Body of the first loop of `Forward` (device to mirror, one input).  The
default-constructed `MatConvertParam` is the same at every call and is not
recorded; the status of `ConvertToMat` is discarded by the source. -/
def forward_input_step {W Acc : Type} (env : Collaborators W Acc) (command_queue : Nat)
    (cpu_blob_in_ : List Blob) (i : Nat) (s : ForwardState W) : Option (ForwardState W) :=
  (s.blobs[i]?).bind fun device_input =>
  (cpu_blob_in_[i]?).bind fun cpu_input =>
  let dims := cpu_input.desc.dims
  if DataFormat.DATA_FORMAT_NCHW = cpu_input.desc.data_format then
    let mat := Mat.naive_nchw_float cpu_input.desc.dims (Buffer.mem cpu_input.handle.base)
    some { s with
           world := env.ConvertToMat s.world device_input mat command_queue
           calls := s.calls ++ [Call.ConvertToMat device_input mat command_queue] }
  else
    let mat := Mat.naive_nchw_float cpu_input.desc.dims Buffer.scratch
    let w1 := env.ConvertToMat s.world device_input mat command_queue
    let src_data := mat.data
    let dst_data := Buffer.mem cpu_input.handle.base
    (dims[0]?).bind fun d0 => (dims[1]?).bind fun d1 =>
    (dims[2]?).bind fun d2 => (dims[3]?).bind fun d3 =>
    some { s with
           world := env.ConvertFromNCHWToNCHW4Float w1 src_data dst_data d0 d1 d2 d3
           calls := s.calls ++ [Call.ConvertToMat device_input mat command_queue,
                                Call.ConvertFromNCHWToNCHW4Float src_data dst_data d0 d1 d2 d3] }

/-- Body of the second loop of `Forward` (mirror to device, one output): the
dims of the mirror blob are written to the device blob, then the data is
converted.  The status of `ConvertFromMat` is discarded by the source. -/
def forward_output_step {W Acc : Type} (env : Collaborators W Acc) (command_queue : Nat)
    (cpu_blob_out_ : List Blob) (i : Nat) (s : ForwardState W) : Option (ForwardState W) :=
  (s.blobs[i]?).bind fun device_output0 =>
  (cpu_blob_out_[i]?).bind fun cpu_output =>
  let dims := cpu_output.desc.dims
  let device_output := device_output0.set_dims dims
  let blobs := s.blobs.set i device_output
  if DataFormat.DATA_FORMAT_NCHW = cpu_output.desc.data_format then
    let mat := Mat.naive_nchw_float cpu_output.desc.dims (Buffer.mem cpu_output.handle.base)
    some { world := env.ConvertFromMat s.world device_output mat command_queue
           blobs := blobs
           calls := s.calls ++ [Call.ConvertFromMat device_output mat command_queue] }
  else
    let mat := Mat.naive_nchw_float cpu_output.desc.dims Buffer.scratch
    let src_data := Buffer.mem cpu_output.handle.base
    let dst_data := mat.data
    (dims[0]?).bind fun d0 => (dims[1]?).bind fun d1 =>
    (dims[2]?).bind fun d2 => (dims[3]?).bind fun d3 =>
    let w1 := env.ConvertFromNCHW4ToNCHWFloat s.world src_data dst_data d0 d1 d2 d3
    some { world := env.ConvertFromMat w1 device_output mat command_queue
           blobs := blobs
           calls := s.calls ++ [Call.ConvertFromNCHW4ToNCHWFloat src_data dst_data d0 d1 d2 d3,
                                Call.ConvertFromMat device_output mat command_queue] }

/-- The method `Forward`.  `GetCommandQueue` reads the queue of `ocl_context_`; the
status of the inner accelerator is discarded by the source. -/
def OpenCLCpuAdapterAcc.Forward {W Acc : Type} (env : Collaborators W Acc)
    (self : OpenCLCpuAdapterAcc Acc) (w : W) (inputs outputs : List Blob) :
    Option (CallResult W Acc) :=
  (self.ocl_context_).bind fun ocl_context =>
  let command_queue := ocl_context.command_queue
  (for_loop (forward_input_step env command_queue self.cpu_blob_in_) inputs.length 0
    { world := w, blobs := inputs, calls := [] }).bind fun s1 =>
  (self.cpu_adapter_acc_).bind fun acc =>
  let inner := env.acc_Forward acc s1.world self.cpu_blob_in_ self.cpu_blob_out_
  let cpu_in := rewrite inner.2.onInput 0 self.cpu_blob_in_
  let cpu_out := rewrite inner.2.onOutput 0 self.cpu_blob_out_
  (for_loop (forward_output_step env command_queue cpu_out) outputs.length 0
    { world := inner.1, blobs := outputs,
      calls := s1.calls ++ [Call.acc_Forward self.cpu_blob_in_ self.cpu_blob_out_] }).bind fun s2 =>
  some { status := Status.OK
         self := { self with cpu_blob_in_ := cpu_in, cpu_blob_out_ := cpu_out }
         world := s2.world, inputs := s1.blobs, outputs := s2.blobs, calls := s2.calls }

/-! ## Specification-side notions -/

/-- A candidate offers the layer type when the registry has a device for it and
that device returns a non-null layer accelerator for the type. -/
def offers {W Acc : Type} (env : Collaborators W Acc) (layer_type : LayerType)
    (device_type : DeviceType) : Bool :=
  match env.GetDevice device_type with
  | none => false
  | some device => (device.CreateLayerAcc layer_type).isSome

/-- Closed form of a dims-copying loop: the first `src.length` blobs of `dst` get
the dims of the blob of `src` at the same index, every other field and every
other blob is left as it is. -/
def copy_dims : List Blob → List Blob → List Blob
  | src :: srcs, dst :: dsts => dst.set_dims src.desc.dims :: copy_dims srcs dsts
  | _, dsts => dsts

/-- Every field of a blob except its dims. -/
def Blob.frame (blob : Blob) : Blob := blob.set_dims []

/-- The four dims `dims[0]`, ..., `dims[3]` the packed branches of `Forward` read
exist: the blob is in the planar layout (the branch is not taken) or has at
least four dims. -/
def dims_in_range (blob : Blob) : Prop :=
  DataFormat.DATA_FORMAT_NCHW = blob.desc.data_format ∨ 4 ≤ blob.desc.dims.length

instance (blob : Blob) : Decidable (dims_in_range blob) := by
  unfold dims_in_range
  infer_instance

/-- The protocol of the specification for one input: a device-to-host conversion
into the memory of the mirror blob when the mirror blob is in the canonical
layout; otherwise a device-to-host conversion into a scratch buffer followed by
the canonical-to-packed transform from the scratch buffer into the memory of
the mirror blob. -/
def protocol_input (command_queue : Nat) (device_input cpu_input : Blob) : List Call :=
  if cpu_input.desc.data_format = DataFormat.DATA_FORMAT_NCHW then
    [Call.ConvertToMat device_input
      (Mat.naive_nchw_float cpu_input.desc.dims (Buffer.mem cpu_input.handle.base)) command_queue]
  else
    [Call.ConvertToMat device_input
      (Mat.naive_nchw_float cpu_input.desc.dims Buffer.scratch) command_queue,
     Call.ConvertFromNCHWToNCHW4Float Buffer.scratch (Buffer.mem cpu_input.handle.base)
      (cpu_input.desc.dims.getD 0 0) (cpu_input.desc.dims.getD 1 0)
      (cpu_input.desc.dims.getD 2 0) (cpu_input.desc.dims.getD 3 0)]

/-- The protocol of the specification for one output: a host-to-device conversion
straight from the memory of the mirror blob when the mirror blob is in the
canonical layout; otherwise the packed-to-canonical transform from the memory
of the mirror blob into a scratch buffer followed by a host-to-device
conversion from the scratch buffer. -/
def protocol_output (command_queue : Nat) (device_output cpu_output : Blob) : List Call :=
  if cpu_output.desc.data_format = DataFormat.DATA_FORMAT_NCHW then
    [Call.ConvertFromMat device_output
      (Mat.naive_nchw_float cpu_output.desc.dims (Buffer.mem cpu_output.handle.base))
      command_queue]
  else
    [Call.ConvertFromNCHW4ToNCHWFloat (Buffer.mem cpu_output.handle.base) Buffer.scratch
      (cpu_output.desc.dims.getD 0 0) (cpu_output.desc.dims.getD 1 0)
      (cpu_output.desc.dims.getD 2 0) (cpu_output.desc.dims.getD 3 0),
     Call.ConvertFromMat device_output
      (Mat.naive_nchw_float cpu_output.desc.dims Buffer.scratch) command_queue]

/-- Calls that move an input from the device to its mirror blob. -/
def Call.is_device_to_host : Call → Bool
  | Call.ConvertToMat _ _ _ => true
  | Call.ConvertFromNCHWToNCHW4Float _ _ _ _ _ _ => true
  | _ => false

/-- Calls that move an output from its mirror blob to the device. -/
def Call.is_host_to_device : Call → Bool
  | Call.ConvertFromMat _ _ _ => true
  | Call.ConvertFromNCHW4ToNCHWFloat _ _ _ _ _ _ => true
  | _ => false

/-- The protocol of the specification for one `Forward`: the inputs in index
order, then one `Forward` of the inner accelerator over the mirror lists, then
the outputs in index order.  `cpu_in` and `cpu_out` are the mirror lists before
the inner call, `cpu_out_after` the mirror outputs after it, `outputs_after` the
device outputs with the propagated dims. -/
def protocol (command_queue : Nat) (inputs cpu_in cpu_out outputs_after cpu_out_after : List Blob) :
    List Call :=
  (List.zipWith (protocol_input command_queue) inputs cpu_in).flatten
    ++ [Call.acc_Forward cpu_in cpu_out]
    ++ (List.zipWith (protocol_output command_queue) outputs_after cpu_out_after).flatten

/-- The descriptor `Init` gives the mirror of a device blob: a copy of the device
descriptor with the device set to the selected backend and the layout left
unresolved. -/
def mirror_desc (device_type : DeviceType) (desc : BlobDesc) : BlobDesc :=
  { desc with device_type := device_type, data_format := DataFormat.DATA_FORMAT_AUTO }

/-- The inner accelerator's `Reshape` does not rewrite the dims of the blobs it
is handed. -/
def InnerReshapeKeepsDims {W Acc : Type} (env : Collaborators W Acc) : Prop :=
  ∀ acc w ins outs i b,
    ((env.acc_Reshape acc w ins outs).2.onInput i b).desc.dims = b.desc.dims ∧
    ((env.acc_Reshape acc w ins outs).2.onOutput i b).desc.dims = b.desc.dims

/-- The inner accelerator's `Reshape` and `Forward` leave the field `g` of the
blobs they are handed as it is. -/
def InnerKeeps {W Acc β : Type} (env : Collaborators W Acc) (g : Blob → β) : Prop :=
  ∀ acc w ins outs i b,
    g ((env.acc_Reshape acc w ins outs).2.onInput i b) = g b ∧
    g ((env.acc_Reshape acc w ins outs).2.onOutput i b) = g b ∧
    g ((env.acc_Forward acc w ins outs).2.onInput i b) = g b ∧
    g ((env.acc_Forward acc w ins outs).2.onOutput i b) = g b

/-- A call a client makes on an initialised adapter. -/
inductive Op where
  | Reshape (inputs outputs : List Blob)
  | Forward (inputs outputs : List Blob)
  | SupportDataFormat (data_type : DataType) (dims_size : Int)

/-- The adapter and the world after a defined call; `SupportDataFormat` only
returns a list. -/
def Op.apply {W Acc : Type} (env : Collaborators W Acc) (self : OpenCLCpuAdapterAcc Acc) (w : W) :
    Op → Option (OpenCLCpuAdapterAcc Acc × W)
  | Op.Reshape inputs outputs => (self.Reshape env w inputs outputs).map fun r => (r.self, r.world)
  | Op.Forward inputs outputs => (self.Forward env w inputs outputs).map fun r => (r.self, r.world)
  | Op.SupportDataFormat _ _ => some (self, w)

/-- A sequence of calls, one after the other. -/
def run {W Acc : Type} (env : Collaborators W Acc) :
    OpenCLCpuAdapterAcc Acc → W → List Op → Option (OpenCLCpuAdapterAcc Acc × W)
  | self, w, [] => some (self, w)
  | self, w, op :: ops => (op.apply env self w).bind fun s => run env s.1 s.2 ops

/-! ## A concrete registry and accelerator

The registry has no ARM device; its NAIVE device implements layer type 7 only.
The accelerator it creates resolves the layout of its input blobs to the planar
layout in `Init` and leaves the output blobs unresolved, sets the dims of its
output blobs in `Forward`, and returns the error status 1 from every call. -/

namespace Example

def inner_error : Status := { code := StatusCode.TNNERR_OTHER 1, message := "inner" }

def keep : AccEffect :=
  { status := inner_error, onInput := fun _ b => b, onOutput := fun _ b => b }

def resolve_inputs : AccEffect :=
  { status := inner_error
    onInput := fun _ b =>
      { b with desc := { b.desc with data_format := DataFormat.DATA_FORMAT_NCHW } }
    onOutput := fun _ b => b }

def infer_output : AccEffect :=
  { status := inner_error
    onInput := fun _ b => b
    onOutput := fun _ b => b.set_dims [1, 8, 56, 56] }

def naive_device : AbstractDevice Nat :=
  { CreateLayerAcc := fun layer_type => if layer_type = 7 then some 1 else none
    CreateContext := fun _ => some (Context.foreign 0) }

def env : Collaborators Nat Nat :=
  { GetDevice := fun device_type =>
      match device_type with
      | DeviceType.DEVICE_NAIVE => some naive_device
      | _ => none
    AbstractLayerAcc_Init := fun w _ _ _ _ _ =>
      (w + 1, { status := Status.OK, onInput := fun _ b => b, onOutput := fun _ b => b })
    Blob_new := fun w _ => (w + 1, { base := w, bytes_offset := 0 })
    acc_Init := fun _ w _ _ _ _ _ => (w + 1, resolve_inputs)
    acc_Reshape := fun _ w _ _ => (w + 1, keep)
    acc_Forward := fun _ w _ _ => (w + 1, infer_output)
    ConvertToMat := fun w _ _ _ => w + 1
    ConvertFromMat := fun w _ _ _ => w + 1
    ConvertFromNCHWToNCHW4Float := fun w _ _ _ _ _ _ => w + 1
    ConvertFromNCHW4ToNCHWFloat := fun w _ _ _ _ _ _ => w + 1 }

def opencl_blob (name : String) (base : Nat) (dims : DimsVector) : Blob :=
  { desc := { device_type := DeviceType.DEVICE_OTHER 4096, data_type := 0,
              data_format := DataFormat.DATA_FORMAT_NHC4W4, dims := dims, name := name }
    handle := { base := base, bytes_offset := 0 } }

def x : Blob := opencl_blob "x" 1000 [1, 3, 224, 224]

def y : Blob := opencl_blob "y" 2000 [1, 8, 112, 112]

def x2 : Blob := opencl_blob "x" 1000 [1, 3, 32, 32]

def y2 : Blob := opencl_blob "y" 2000 [1, 8, 16, 16]

def ocl : OpenCLContext := { command_queue := 5 }

/-- Built for layer type 7: bound to the NAIVE device. -/
def bound : OpenCLCpuAdapterAcc Nat := (OpenCLCpuAdapterAcc.new env 7).self

/-- Built for layer type 8, which no candidate offers. -/
def unbound : OpenCLCpuAdapterAcc Nat := (OpenCLCpuAdapterAcc.new env 8).self

/-- The mirror blobs `bound` has after `Init` with `[x]` and `[y]`. -/
def mirror_x : Blob :=
  { desc := { device_type := DeviceType.DEVICE_NAIVE, data_type := 0,
              data_format := DataFormat.DATA_FORMAT_NCHW, dims := [1, 3, 224, 224], name := "x" }
    handle := { base := 1, bytes_offset := 0 } }

def mirror_y : Blob :=
  { desc := { device_type := DeviceType.DEVICE_NAIVE, data_type := 0,
              data_format := DataFormat.DATA_FORMAT_AUTO, dims := [1, 8, 112, 112], name := "y" }
    handle := { base := 2, bytes_offset := 0 } }

/-- The adapter `bound` after `Init` with an OpenCL context, `[x]` and `[y]`. -/
def ready : OpenCLCpuAdapterAcc Nat :=
  { bound with ocl_context_ := some ocl, cpu_blob_in_ := [mirror_x], cpu_blob_out_ := [mirror_y] }

end Example

/-! ## Theorems -/

/-! ### Loops -/

theorem for_loop_some {S : Type} (body : Nat → S → Option S) (P : Nat → S → Prop) :
    ∀ (n i : Nat) (s t : S), for_loop body n i s = some t → P i s →
      (∀ k u v, i ≤ k → k < i + n → body k u = some v → P k u → P (k + 1) v) →
      P (i + n) t := by
  intro n
  induction n with
  | zero =>
    intro i s t h h0 _
    simp only [for_loop, Option.some.injEq] at h
    subst h
    simpa using h0
  | succ n ih =>
    intro i s t h h0 hstep
    simp only [for_loop, Option.bind_eq_some] at h
    obtain ⟨v, hv, hrest⟩ := h
    have h1 : P (i + 1) v := hstep i s v (Nat.le_refl i) (by omega) hv h0
    have h2 := ih (i + 1) v t hrest h1
      (fun k u v2 hk hk2 hb hp => hstep k u v2 (by omega) (by omega) hb hp)
    have e : i + 1 + n = i + (n + 1) := by omega
    rw [e] at h2
    exact h2

theorem for_loop_defined {S : Type} (body : Nat → S → Option S) (P : Nat → S → Prop) :
    ∀ (n i : Nat) (s : S), P i s →
      (∀ k u, i ≤ k → k < i + n → P k u → ∃ v, body k u = some v ∧ P (k + 1) v) →
      ∃ t, for_loop body n i s = some t ∧ P (i + n) t := by
  intro n
  induction n with
  | zero =>
    intro i s h0 _
    exact ⟨s, rfl, by simpa using h0⟩
  | succ n ih =>
    intro i s h0 hstep
    obtain ⟨v, hv, h1⟩ := hstep i s (Nat.le_refl i) (by omega) h0
    obtain ⟨t, ht, h2⟩ := ih (i + 1) v h1 (fun k u hk hk2 hp => hstep k u (by omega) (by omega) hp)
    refine ⟨t, ?_, ?_⟩
    · simp only [for_loop, hv, Option.some_bind, ht]
    · have e : i + 1 + n = i + (n + 1) := by omega
      rw [e] at h2
      exact h2

/-! ### The closed form `copy_dims` -/

theorem length_copy_dims : ∀ (src dst : List Blob), (copy_dims src dst).length = dst.length
  | [], dst => by simp [copy_dims]
  | _ :: _, [] => by simp [copy_dims]
  | a :: src, b :: dst => by simp [copy_dims, length_copy_dims src dst]

theorem getElem?_copy_dims_of_le : ∀ (src dst : List Blob) (k : Nat), src.length ≤ k →
    (copy_dims src dst)[k]? = dst[k]?
  | [], dst, k, _ => by simp [copy_dims]
  | _ :: _, [], k, _ => by simp [copy_dims]
  | a :: src, b :: dst, 0, h => by simp at h
  | a :: src, b :: dst, k + 1, h => by
    simp only [copy_dims, List.getElem?_cons_succ]
    exact getElem?_copy_dims_of_le src dst k (by simpa using h)

theorem getElem?_copy_dims : ∀ (src dst : List Blob) (k : Nat) (a b : Blob),
    src[k]? = some a → dst[k]? = some b →
    (copy_dims src dst)[k]? = some (b.set_dims a.desc.dims)
  | [], dst, k, a, b, h, _ => by simp at h
  | _ :: _, [], k, a, b, _, h => by simp at h
  | x :: src, y :: dst, 0, a, b, h1, h2 => by
    simp at h1 h2
    subst h1 h2
    simp [copy_dims]
  | x :: src, y :: dst, k + 1, a, b, h1, h2 => by
    simp only [copy_dims, List.getElem?_cons_succ] at *
    exact getElem?_copy_dims src dst k a b h1 h2

theorem copy_dims_take_succ : ∀ (src dst : List Blob) (k : Nat) (a b : Blob),
    src[k]? = some a → dst[k]? = some b →
    copy_dims (src.take (k + 1)) dst
      = (copy_dims (src.take k) dst).set k (b.set_dims a.desc.dims)
  | [], dst, k, a, b, h, _ => by simp at h
  | _ :: _, [], k, a, b, _, h => by simp at h
  | x :: src, y :: dst, 0, a, b, h1, h2 => by
    simp at h1 h2
    subst h1 h2
    simp [copy_dims]
  | x :: src, y :: dst, k + 1, a, b, h1, h2 => by
    simp only [List.getElem?_cons_succ] at h1 h2
    simp only [List.take_succ_cons, copy_dims, List.set_cons_succ]
    rw [copy_dims_take_succ src dst k a b h1 h2]

theorem map_frame_copy_dims : ∀ (src dst : List Blob),
    (copy_dims src dst).map Blob.frame = dst.map Blob.frame
  | [], dst => by simp [copy_dims]
  | _ :: _, [] => by simp [copy_dims]
  | a :: src, b :: dst => by
    simp [copy_dims, map_frame_copy_dims src dst, Blob.frame, Blob.set_dims]

theorem map_dims_copy_dims : ∀ (src dst : List Blob), src.length = dst.length →
    (copy_dims src dst).map (fun b => b.desc.dims) = src.map (fun b => b.desc.dims)
  | [], [], _ => by simp [copy_dims]
  | [], _ :: _, h => by simp at h
  | _ :: _, [], h => by simp at h
  | a :: src, b :: dst, h => by
    simp only [List.length_cons, Nat.add_right_cancel_iff] at h
    simp [copy_dims, map_dims_copy_dims src dst h, Blob.set_dims]

/-- The dims-copying loop of `Reshape` is defined exactly when the source list is
not longer than the destination list, and then computes `copy_dims`. -/
theorem reshape_loop_some (src dst t : List Blob)
    (h : for_loop (reshape_step src) src.length 0 dst = some t) :
    src.length ≤ dst.length ∧ t = copy_dims src dst := by
  have key := for_loop_some (reshape_step src)
    (fun k u => k ≤ src.length → (k ≤ dst.length ∧ u = copy_dims (src.take k) dst))
    src.length 0 dst t h (by intro _; simp [copy_dims])
    (by
      intro k u v _ hk hb hP _
      have hk2 : k < src.length := by omega
      obtain ⟨hkd, hu⟩ := hP (by omega)
      simp only [reshape_step, Option.bind_eq_some] at hb
      obtain ⟨a, ha, b, hb2, hv⟩ := hb
      simp only [Option.some.injEq] at hv
      have hlen : u.length = dst.length := by rw [hu, length_copy_dims]
      have hkl : k < u.length := by
        rcases List.getElem?_eq_some.mp hb2 with ⟨hlt, _⟩
        exact hlt
      have hb3 : dst[k]? = some b := by
        rw [hu, getElem?_copy_dims_of_le _ _ _ (by simp)] at hb2
        exact hb2
      refine ⟨by omega, ?_⟩
      rw [← hv, hu, copy_dims_take_succ src dst k a b ha hb3])
  have := key (by omega)
  simpa using this

theorem reshape_loop_defined (src dst : List Blob) (h : src.length ≤ dst.length) :
    for_loop (reshape_step src) src.length 0 dst = some (copy_dims src dst) := by
  obtain ⟨t, ht, _⟩ := for_loop_defined (reshape_step src)
    (fun _ u => u.length = dst.length) src.length 0 dst rfl
    (by
      intro k u _ hk hlen
      have hk1 : k < src.length := by omega
      have hk2 : k < u.length := by omega
      refine ⟨u.set k ((u[k]).set_dims (src[k]).desc.dims), ?_, by simp [hlen]⟩
      simp [reshape_step, List.getElem?_eq_getElem hk1, List.getElem?_eq_getElem hk2])
  rw [ht, (reshape_loop_some src dst t ht).2]


/-- C1: the constructor binds the adapter to the first candidate of the list
(DEVICE_ARM, then DEVICE_NAIVE) that offers the layer type: the selected backend
domain is that candidate, the inner accelerator is the one its device created,
the execution context is created from the same device, and no candidate after
it is probed; when no candidate offers the type there is no inner accelerator
and both mirror lists are empty.  The selected domain is the first element of
the candidate list satisfying `offers`, so it depends on the list and the
registry only. -/
theorem new_binds_first_offering_candidate {W Acc : Type} (env : Collaborators W Acc)
    (layer_type : LayerType) :
    device_list = [DeviceType.DEVICE_ARM, DeviceType.DEVICE_NAIVE] ∧
    (OpenCLCpuAdapterAcc.new env layer_type).self.impl_device_type_
        = device_list.find? (offers env layer_type) ∧
    (OpenCLCpuAdapterAcc.new env layer_type).self.impl_layer_type_ = layer_type ∧
    (OpenCLCpuAdapterAcc.new env layer_type).self.cpu_blob_in_ = [] ∧
    (OpenCLCpuAdapterAcc.new env layer_type).self.cpu_blob_out_ = [] ∧
    (OpenCLCpuAdapterAcc.new env layer_type).self.ocl_context_ = none ∧
    match device_list.find? (offers env layer_type) with
    | some d =>
      ∃ device acc, env.GetDevice d = some device ∧
        device.CreateLayerAcc layer_type = some acc ∧
        (OpenCLCpuAdapterAcc.new env layer_type).self.cpu_adapter_acc_ = some acc ∧
        (OpenCLCpuAdapterAcc.new env layer_type).self.impl_device_context_
          = device.CreateContext 0 ∧
        Call.CreateContext d 0 ∈ (OpenCLCpuAdapterAcc.new env layer_type).calls ∧
        ∀ d2 ∈ device_list, device_list.indexOf d < device_list.indexOf d2 →
          ∀ call ∈ (OpenCLCpuAdapterAcc.new env layer_type).calls,
            call ≠ Call.GetDevice d2 ∧ call ≠ Call.CreateLayerAcc d2 layer_type ∧
            ∀ id, call ≠ Call.CreateContext d2 id
    | none =>
      (OpenCLCpuAdapterAcc.new env layer_type).self.cpu_adapter_acc_ = none ∧
      (OpenCLCpuAdapterAcc.new env layer_type).self.impl_device_context_ = none ∧
      ∀ call ∈ (OpenCLCpuAdapterAcc.new env layer_type).calls, ∀ d id,
        call ≠ Call.CreateContext d id := by
  refine ⟨rfl, ?_⟩
  have hne : (DeviceType.DEVICE_ARM == DeviceType.DEVICE_NAIVE) = false := by decide
  unfold OpenCLCpuAdapterAcc.new device_list
  simp only [construct_loop, OpenCLCpuAdapterAcc.fresh, List.find?, offers]
  cases hA : env.GetDevice DeviceType.DEVICE_ARM with
  | none =>
    cases hN : env.GetDevice DeviceType.DEVICE_NAIVE with
    | none => simp
    | some devN =>
      cases hNa : devN.CreateLayerAcc layer_type with
      | none => simp [hNa]
      | some accN => simp [hNa, hN, List.indexOf_cons, hne]
  | some devA =>
    cases hAa : devA.CreateLayerAcc layer_type with
    | none =>
      cases hN : env.GetDevice DeviceType.DEVICE_NAIVE with
      | none => simp [hAa]
      | some devN =>
        cases hNa : devN.CreateLayerAcc layer_type with
        | none => simp [hAa, hNa]
        | some accN => simp [hAa, hNa, hN, List.indexOf_cons, hne]
    | some accA => simp [hAa, hA, List.indexOf_cons, hne]

/-- Witness of C1: the example registry has no ARM device and its NAIVE device
implements layer type 7, so the adapter built for type 7 is bound to
DEVICE_NAIVE. -/
theorem new_binds_first_offering_candidate_witness :
    (OpenCLCpuAdapterAcc.new Example.env 7).self.impl_device_type_
      = some DeviceType.DEVICE_NAIVE :=
  (new_binds_first_offering_candidate Example.env 7).2.1.trans (by decide)

/-- C9: `SupportDataFormat` returns the one-element list holding
DATA_FORMAT_NHC4W4 when the rank is 4 and the empty list for every other rank
(rank 2 among them); the result is the same for every value type and every
adapter state. -/
theorem SupportDataFormat_only_rank_four {Acc : Type} (self other : OpenCLCpuAdapterAcc Acc)
    (data_type data_type2 : DataType) (dims_size : Int) :
    self.SupportDataFormat data_type dims_size
        = (if dims_size = 4 then [DataFormat.DATA_FORMAT_NHC4W4] else []) ∧
    self.SupportDataFormat data_type 4 = [DataFormat.DATA_FORMAT_NHC4W4] ∧
    (self.SupportDataFormat data_type 4).length = 1 ∧
    self.SupportDataFormat data_type 2 = [] ∧
    self.SupportDataFormat data_type dims_size = other.SupportDataFormat data_type2 dims_size := by
  unfold OpenCLCpuAdapterAcc.SupportDataFormat
  refine ⟨?_, ?_, ?_, ?_, ?_⟩
  · split <;> simp
  · simp
  · simp
  · simp
  · rfl

/-! ### The loops of `Forward` -/

theorem forward_input_step_some {W Acc : Type} (env : Collaborators W Acc) (q : Nat)
    (cpu_in : List Blob) (k : Nat) (u v : ForwardState W)
    (h : forward_input_step env q cpu_in k u = some v) :
    ∃ a b, u.blobs[k]? = some a ∧ cpu_in[k]? = some b ∧ dims_in_range b ∧
      v.blobs = u.blobs ∧ v.calls = u.calls ++ protocol_input q a b := by
  simp only [forward_input_step, Option.bind_eq_some] at h
  obtain ⟨a, ha, b, hb, hv⟩ := h
  refine ⟨a, b, ha, hb, ?_⟩
  by_cases hf : DataFormat.DATA_FORMAT_NCHW = b.desc.data_format
  · simp only [hf, if_true, Option.some.injEq] at hv
    subst hv
    exact ⟨Or.inl hf, rfl, by simp [protocol_input, ← hf]⟩
  · simp only [hf, if_false, Option.bind_eq_some, Option.some.injEq] at hv
    obtain ⟨d0, h0, d1, h1, d2, h2, d3, h3, hv⟩ := hv
    subst hv
    have hlen : 4 ≤ b.desc.dims.length := by
      rcases List.getElem?_eq_some.mp h3 with ⟨hlt, _⟩
      omega
    have hf2 : ¬ b.desc.data_format = DataFormat.DATA_FORMAT_NCHW := fun e => hf e.symm
    refine ⟨Or.inr hlen, rfl, ?_⟩
    simp [protocol_input, hf2, h0, h1, h2, h3, Mat.naive_nchw_float]

theorem forward_input_step_defined {W Acc : Type} (env : Collaborators W Acc) (q : Nat)
    (cpu_in : List Blob) (k : Nat) (u : ForwardState W) (a b : Blob)
    (ha : u.blobs[k]? = some a) (hb : cpu_in[k]? = some b) (hr : dims_in_range b) :
    ∃ v, forward_input_step env q cpu_in k u = some v := by
  by_cases hf : DataFormat.DATA_FORMAT_NCHW = b.desc.data_format
  · simp [forward_input_step, ha, hb, hf]
  · have hlen : 4 ≤ b.desc.dims.length := by
      rcases hr with h | h
      · exact absurd h hf
      · exact h
    simp [forward_input_step, ha, hb, hf, List.getElem?_eq_getElem (show 0 < b.desc.dims.length by omega),
      List.getElem?_eq_getElem (show 1 < b.desc.dims.length by omega),
      List.getElem?_eq_getElem (show 2 < b.desc.dims.length by omega),
      List.getElem?_eq_getElem (show 3 < b.desc.dims.length by omega)]

theorem forward_output_step_some {W Acc : Type} (env : Collaborators W Acc) (q : Nat)
    (cpu_out : List Blob) (k : Nat) (u v : ForwardState W)
    (h : forward_output_step env q cpu_out k u = some v) :
    ∃ a b, u.blobs[k]? = some a ∧ cpu_out[k]? = some b ∧ dims_in_range b ∧
      v.blobs = u.blobs.set k (a.set_dims b.desc.dims) ∧
      v.calls = u.calls ++ protocol_output q (a.set_dims b.desc.dims) b := by
  simp only [forward_output_step, Option.bind_eq_some] at h
  obtain ⟨a, ha, b, hb, hv⟩ := h
  refine ⟨a, b, ha, hb, ?_⟩
  by_cases hf : DataFormat.DATA_FORMAT_NCHW = b.desc.data_format
  · simp only [hf, if_true, Option.some.injEq] at hv
    subst hv
    exact ⟨Or.inl hf, rfl, by simp [protocol_output, ← hf]⟩
  · simp only [hf, if_false, Option.bind_eq_some, Option.some.injEq] at hv
    obtain ⟨d0, h0, d1, h1, d2, h2, d3, h3, hv⟩ := hv
    subst hv
    have hlen : 4 ≤ b.desc.dims.length := by
      rcases List.getElem?_eq_some.mp h3 with ⟨hlt, _⟩
      omega
    have hf2 : ¬ b.desc.data_format = DataFormat.DATA_FORMAT_NCHW := fun e => hf e.symm
    refine ⟨Or.inr hlen, rfl, ?_⟩
    simp [protocol_output, hf2, h0, h1, h2, h3, Mat.naive_nchw_float]

theorem forward_output_step_defined {W Acc : Type} (env : Collaborators W Acc) (q : Nat)
    (cpu_out : List Blob) (k : Nat) (u : ForwardState W) (a b : Blob)
    (ha : u.blobs[k]? = some a) (hb : cpu_out[k]? = some b) (hr : dims_in_range b) :
    ∃ v, forward_output_step env q cpu_out k u = some v := by
  by_cases hf : DataFormat.DATA_FORMAT_NCHW = b.desc.data_format
  · simp [forward_output_step, ha, hb, hf]
  · have hlen : 4 ≤ b.desc.dims.length := by
      rcases hr with h | h
      · exact absurd h hf
      · exact h
    simp [forward_output_step, ha, hb, hf, List.getElem?_eq_getElem (show 0 < b.desc.dims.length by omega),
      List.getElem?_eq_getElem (show 1 < b.desc.dims.length by omega),
      List.getElem?_eq_getElem (show 2 < b.desc.dims.length by omega),
      List.getElem?_eq_getElem (show 3 < b.desc.dims.length by omega)]

theorem copy_dims_take_length : ∀ (src dst : List Blob),
    copy_dims (src.take dst.length) dst = copy_dims src dst
  | [], dst => by simp
  | _ :: _, [] => by simp [copy_dims]
  | a :: src, b :: dst => by
    simp [copy_dims, copy_dims_take_length src dst]

theorem flatten_take_succ {α : Type} (zs : List (List α)) (k : Nat) (z : List α)
    (h : zs[k]? = some z) : (zs.take (k + 1)).flatten = (zs.take k).flatten ++ z := by
  rw [List.take_succ, h]
  simp

theorem forward_input_loop_some {W Acc : Type} (env : Collaborators W Acc) (q : Nat)
    (cpu_in inputs : List Blob) (w : W) (calls0 : List Call) (t : ForwardState W)
    (h : for_loop (forward_input_step env q cpu_in) inputs.length 0
      { world := w, blobs := inputs, calls := calls0 } = some t) :
    inputs.length ≤ cpu_in.length ∧ t.blobs = inputs ∧
    t.calls = calls0 ++ (List.zipWith (protocol_input q) inputs cpu_in).flatten ∧
    ∀ k b, k < inputs.length → cpu_in[k]? = some b → dims_in_range b := by
  have key := for_loop_some (forward_input_step env q cpu_in)
    (fun k u => k ≤ inputs.length →
      (k ≤ cpu_in.length ∧ u.blobs = inputs ∧
       u.calls = calls0 ++ ((List.zipWith (protocol_input q) inputs cpu_in).take k).flatten ∧
       ∀ j b, j < k → cpu_in[j]? = some b → dims_in_range b))
    inputs.length 0 _ t h (by intro _; simp)
    (by
      intro k u v _ hk hstep hP _
      obtain ⟨hkc, hblobs, hcalls, hranks⟩ := hP (by omega)
      obtain ⟨a, b, ha, hb, hr, hvb, hvc⟩ := forward_input_step_some env q cpu_in k u v hstep
      rw [hblobs] at ha
      have hkb : k < cpu_in.length := (List.getElem?_eq_some.mp hb).1
      have hz : (List.zipWith (protocol_input q) inputs cpu_in)[k]? = some (protocol_input q a b) := by
        rw [List.getElem?_zipWith, ha, hb]
      refine ⟨by omega, by rw [hvb, hblobs], ?_, ?_⟩
      · rw [hvc, hcalls, flatten_take_succ _ _ _ hz, List.append_assoc]
      · intro j b2 hj hb2
        by_cases hjk : j = k
        · subst hjk
          rw [hb] at hb2
          simp only [Option.some.injEq] at hb2
          subst hb2
          exact hr
        · exact hranks j b2 (by omega) hb2)
  obtain ⟨hlen, hblobs, hcalls, hranks⟩ := key (by omega)
  refine ⟨by omega, hblobs, ?_, ?_⟩
  · rw [hcalls, List.take_of_length_le]
    simp only [List.length_zipWith, Nat.zero_add]
    omega
  · intro k b hk hb
    exact hranks k b (by omega) hb

theorem forward_input_loop_defined {W Acc : Type} (env : Collaborators W Acc) (q : Nat)
    (cpu_in inputs : List Blob) (w : W) (calls0 : List Call)
    (hlen : inputs.length ≤ cpu_in.length)
    (hranks : ∀ k b, k < inputs.length → cpu_in[k]? = some b → dims_in_range b) :
    ∃ t, for_loop (forward_input_step env q cpu_in) inputs.length 0
      { world := w, blobs := inputs, calls := calls0 } = some t := by
  obtain ⟨t, ht, _⟩ := for_loop_defined (forward_input_step env q cpu_in)
    (fun _ u => u.blobs = inputs) inputs.length 0
    { world := w, blobs := inputs, calls := calls0 } rfl
    (by
      intro k u _ hk hblobs
      have hk1 : k < inputs.length := by omega
      have hk2 : k < cpu_in.length := by omega
      have ha : u.blobs[k]? = some (inputs[k]) := by
        rw [hblobs, List.getElem?_eq_getElem hk1]
      have hb : cpu_in[k]? = some (cpu_in[k]) := List.getElem?_eq_getElem hk2
      obtain ⟨v, hv⟩ := forward_input_step_defined env q cpu_in k u _ _ ha hb
        (hranks k _ hk1 hb)
      obtain ⟨_, _, _, _, _, hvb, _⟩ := forward_input_step_some env q cpu_in k u v hv
      exact ⟨v, hv, by show v.blobs = inputs; rw [hvb, hblobs]⟩)
  exact ⟨t, ht⟩

theorem forward_output_loop_some {W Acc : Type} (env : Collaborators W Acc) (q : Nat)
    (cpu_out outputs : List Blob) (w : W) (calls0 : List Call) (t : ForwardState W)
    (h : for_loop (forward_output_step env q cpu_out) outputs.length 0
      { world := w, blobs := outputs, calls := calls0 } = some t) :
    outputs.length ≤ cpu_out.length ∧ t.blobs = copy_dims cpu_out outputs ∧
    t.calls = calls0 ++
      (List.zipWith (protocol_output q) (copy_dims cpu_out outputs) cpu_out).flatten ∧
    ∀ k b, k < outputs.length → cpu_out[k]? = some b → dims_in_range b := by
  have key := for_loop_some (forward_output_step env q cpu_out)
    (fun k u => k ≤ outputs.length →
      (k ≤ cpu_out.length ∧ u.blobs = copy_dims (cpu_out.take k) outputs ∧
       u.calls = calls0 ++
         ((List.zipWith (protocol_output q) (copy_dims cpu_out outputs) cpu_out).take k).flatten ∧
       ∀ j b, j < k → cpu_out[j]? = some b → dims_in_range b))
    outputs.length 0 _ t h (by intro _; simp [copy_dims])
    (by
      intro k u v _ hk hstep hP _
      obtain ⟨hkc, hblobs, hcalls, hranks⟩ := hP (by omega)
      obtain ⟨a, b, ha, hb, hr, hvb, hvc⟩ := forward_output_step_some env q cpu_out k u v hstep
      rw [hblobs, getElem?_copy_dims_of_le _ _ _ (by simp)] at ha
      have hkb : k < cpu_out.length := (List.getElem?_eq_some.mp hb).1
      have hz : (List.zipWith (protocol_output q) (copy_dims cpu_out outputs) cpu_out)[k]?
          = some (protocol_output q (a.set_dims b.desc.dims) b) := by
        rw [List.getElem?_zipWith, getElem?_copy_dims cpu_out outputs k b a hb ha, hb]
      refine ⟨by omega, ?_, ?_, ?_⟩
      · rw [hvb, hblobs, copy_dims_take_succ cpu_out outputs k b a hb ha]
      · rw [hvc, hcalls, flatten_take_succ _ _ _ hz, List.append_assoc]
      · intro j b2 hj hb2
        by_cases hjk : j = k
        · subst hjk
          rw [hb] at hb2
          simp only [Option.some.injEq] at hb2
          subst hb2
          exact hr
        · exact hranks j b2 (by omega) hb2)
  obtain ⟨hlen, hblobs, hcalls, hranks⟩ := key (by omega)
  have hlen2 : outputs.length ≤ cpu_out.length := by omega
  refine ⟨hlen2, ?_, ?_, ?_⟩
  · rw [hblobs]
    simpa using copy_dims_take_length cpu_out outputs
  · rw [hcalls, List.take_of_length_le]
    simp only [List.length_zipWith, Nat.zero_add, length_copy_dims]
    omega
  · intro k b hk hb
    exact hranks k b (by omega) hb

theorem forward_output_loop_defined {W Acc : Type} (env : Collaborators W Acc) (q : Nat)
    (cpu_out outputs : List Blob) (w : W) (calls0 : List Call)
    (hlen : outputs.length ≤ cpu_out.length)
    (hranks : ∀ k b, k < outputs.length → cpu_out[k]? = some b → dims_in_range b) :
    ∃ t, for_loop (forward_output_step env q cpu_out) outputs.length 0
      { world := w, blobs := outputs, calls := calls0 } = some t := by
  obtain ⟨t, ht, _⟩ := for_loop_defined (forward_output_step env q cpu_out)
    (fun _ u => u.blobs.length = outputs.length) outputs.length 0
    { world := w, blobs := outputs, calls := calls0 } rfl
    (by
      intro k u _ hk hblobs
      have hk1 : k < u.blobs.length := by omega
      have hk2 : k < cpu_out.length := by omega
      have ha : u.blobs[k]? = some (u.blobs[k]) := List.getElem?_eq_getElem hk1
      have hb : cpu_out[k]? = some (cpu_out[k]) := List.getElem?_eq_getElem hk2
      obtain ⟨v, hv⟩ := forward_output_step_defined env q cpu_out k u _ _ ha hb
        (hranks k _ (by omega) hb)
      obtain ⟨_, _, _, _, _, hvb, _⟩ := forward_output_step_some env q cpu_out k u v hv
      exact ⟨v, hv, by show v.blobs.length = outputs.length; rw [hvb, List.length_set, hblobs]⟩)
  exact ⟨t, ht⟩

/-! ### Rewrites by a callee -/

theorem length_rewrite (f : Nat → Blob → Blob) : ∀ (i : Nat) (l : List Blob),
    (rewrite f i l).length = l.length
  | _, [] => rfl
  | i, _ :: bs => by simp [rewrite, length_rewrite f (i + 1) bs]

theorem map_rewrite {β : Type} (f : Nat → Blob → Blob) (g : Blob → β)
    (h : ∀ i b, g (f i b) = g b) : ∀ (i : Nat) (l : List Blob),
    (rewrite f i l).map g = l.map g
  | _, [] => rfl
  | i, b :: bs => by simp [rewrite, h, map_rewrite f g h (i + 1) bs]

/-! ### `Init` -/

theorem init_loop_some {W Acc : Type} (env : Collaborators W Acc) (dt : Option DeviceType) :
    ∀ (src : List Blob) (w : W) (cpu_blob : List Blob) (res : W × List Blob),
      init_loop env dt src w cpu_blob = some res →
      ∃ created, res.2 = cpu_blob ++ created ∧ created.length = src.length ∧
        ∀ d, dt = some d →
          created.map (fun b => b.desc) = src.map (fun b => mirror_desc d b.desc)
  | [], w, cpu_blob, res, h => by
    simp only [init_loop, Option.some.injEq] at h
    subst h
    exact ⟨[], by simp, rfl, by simp⟩
  | input :: rest, w, cpu_blob, res, h => by
    cases hdt : dt with
    | none => simp [init_loop, hdt] at h
    | some d0 =>
      simp only [init_loop, hdt] at h
      obtain ⟨created, h1, h2, h3⟩ := init_loop_some env (some d0) rest _ _ res h
      refine ⟨{ desc := mirror_desc d0 input.desc,
                handle := (env.Blob_new w (mirror_desc d0 input.desc)).2 } :: created,
        ?_, by simp [h2], ?_⟩
      · rw [h1]
        simp [mirror_desc]
      · intro d hd
        simp only [Option.some.injEq] at hd
        subst hd
        simp [h3 d0 rfl, mirror_desc]

theorem init_loop_defined {W Acc : Type} (env : Collaborators W Acc) (d : DeviceType) :
    ∀ (src : List Blob) (w : W) (cpu_blob : List Blob),
      ∃ res, init_loop env (some d) src w cpu_blob = some res
  | [], w, cpu_blob => ⟨_, rfl⟩
  | input :: rest, w, cpu_blob => by
    simp only [init_loop]
    exact init_loop_defined env d rest _ _

/-- `Init` on an adapter without inner accelerator. -/
theorem Init_of_unbound {W Acc : Type} (env : Collaborators W Acc)
    (self : OpenCLCpuAdapterAcc Acc) (w : W) (context : Option Context) (param : LayerParam)
    (resource : LayerResource) (inputs outputs : List Blob)
    (hacc : self.cpu_adapter_acc_ = none) :
    self.Init env w context param resource inputs outputs
      = some { status := { code := StatusCode.TNNERR_OPENCL_ACC_INIT_ERROR,
                           message := "cpu adapter acc is null" }
               self := self, world := w, inputs := inputs, outputs := outputs, calls := [] } := by
  simp [OpenCLCpuAdapterAcc.Init, hacc]

/-- `Init` on a bound adapter with a context that is not an `OpenCLContext`. -/
theorem Init_of_foreign_context {W Acc : Type} (env : Collaborators W Acc)
    (self : OpenCLCpuAdapterAcc Acc) (w : W) (context : Option Context) (param : LayerParam)
    (resource : LayerResource) (inputs outputs : List Blob) (acc : Acc)
    (hacc : self.cpu_adapter_acc_ = some acc)
    (hctx : dynamic_cast_OpenCLContext context = none) :
    self.Init env w context param resource inputs outputs
      = some { status := { code := StatusCode.TNNERR_NULL_PARAM,
                           message := "OpenCL Context Convert failed" }
               self := { self with ocl_context_ := none }
               world := (env.AbstractLayerAcc_Init w context param resource inputs outputs).1
               inputs := rewrite
                 (env.AbstractLayerAcc_Init w context param resource inputs outputs).2.onInput 0
                 inputs
               outputs := rewrite
                 (env.AbstractLayerAcc_Init w context param resource inputs outputs).2.onOutput 0
                 outputs
               calls := [Call.AbstractLayerAcc_Init context inputs outputs] } := by
  simp [OpenCLCpuAdapterAcc.Init, hacc, hctx]

/-- `Init` on a bound adapter with an `OpenCLContext`: what a defined call returns. -/
theorem Init_some {W Acc : Type} (env : Collaborators W Acc)
    (self : OpenCLCpuAdapterAcc Acc) (w : W) (context : Option Context) (param : LayerParam)
    (resource : LayerResource) (inputs outputs : List Blob) (acc : Acc) (ocl : OpenCLContext)
    (r : CallResult W Acc)
    (hacc : self.cpu_adapter_acc_ = some acc)
    (hctx : dynamic_cast_OpenCLContext context = some ocl)
    (h : self.Init env w context param resource inputs outputs = some r) :
    ∃ (created_in created_out : List Blob) (w1 : W),
      r.status = Status.OK ∧
      r.inputs = rewrite
        (env.AbstractLayerAcc_Init w context param resource inputs outputs).2.onInput 0 inputs ∧
      r.outputs = rewrite
        (env.AbstractLayerAcc_Init w context param resource inputs outputs).2.onOutput 0 outputs ∧
      created_in.length = inputs.length ∧ created_out.length = outputs.length ∧
      (∀ d, self.impl_device_type_ = some d →
        created_in.map (fun b => b.desc) = r.inputs.map (fun b => mirror_desc d b.desc) ∧
        created_out.map (fun b => b.desc) = r.outputs.map (fun b => mirror_desc d b.desc)) ∧
      r.calls = [Call.AbstractLayerAcc_Init context inputs outputs,
                 Call.acc_Init self.impl_device_context_ (self.cpu_blob_in_ ++ created_in)
                   (self.cpu_blob_out_ ++ created_out)] ∧
      r.self = { self with
                 ocl_context_ := some ocl
                 cpu_blob_in_ := rewrite
                   (env.acc_Init acc w1 self.impl_device_context_ param resource
                     (self.cpu_blob_in_ ++ created_in) (self.cpu_blob_out_ ++ created_out)).2.onInput
                   0 (self.cpu_blob_in_ ++ created_in)
                 cpu_blob_out_ := rewrite
                   (env.acc_Init acc w1 self.impl_device_context_ param resource
                     (self.cpu_blob_in_ ++ created_in) (self.cpu_blob_out_ ++ created_out)).2.onOutput
                   0 (self.cpu_blob_out_ ++ created_out) } := by
  simp only [OpenCLCpuAdapterAcc.Init, hacc, hctx, Option.bind_eq_some] at h
  obtain ⟨r_in, h_in, r_out, h_out, hr⟩ := h
  simp only [Option.some.injEq] at hr
  obtain ⟨c_in, e_in, l_in, d_in⟩ := init_loop_some env _ _ _ _ _ h_in
  obtain ⟨c_out, e_out, l_out, d_out⟩ := init_loop_some env _ _ _ _ _ h_out
  refine ⟨c_in, c_out, r_out.1, ?_⟩
  subst hr
  simp only [length_rewrite] at l_in l_out
  refine ⟨rfl, rfl, rfl, l_in, l_out, ?_, ?_, ?_⟩
  · intro d hd
    exact ⟨d_in d hd, d_out d hd⟩
  · simp [e_in, e_out]
  · simp [e_in, e_out, hacc]

theorem Init_defined {W Acc : Type} (env : Collaborators W Acc)
    (self : OpenCLCpuAdapterAcc Acc) (w : W) (context : Option Context) (param : LayerParam)
    (resource : LayerResource) (inputs outputs : List Blob) (acc : Acc) (ocl : OpenCLContext)
    (d : DeviceType)
    (hacc : self.cpu_adapter_acc_ = some acc)
    (hctx : dynamic_cast_OpenCLContext context = some ocl)
    (hdev : self.impl_device_type_ = some d) :
    ∃ r, self.Init env w context param resource inputs outputs = some r := by
  simp only [OpenCLCpuAdapterAcc.Init, hacc, hctx, hdev]
  obtain ⟨r_in, h_in⟩ := init_loop_defined env d
    (rewrite (env.AbstractLayerAcc_Init w context param resource inputs outputs).2.onInput 0 inputs)
    (env.AbstractLayerAcc_Init w context param resource inputs outputs).1 self.cpu_blob_in_
  obtain ⟨r_out, h_out⟩ := init_loop_defined env d
    (rewrite (env.AbstractLayerAcc_Init w context param resource inputs outputs).2.onOutput 0
      outputs) r_in.1 self.cpu_blob_out_
  simp [h_in, h_out]

/-! ### `Reshape` -/

/-- What a defined call of `Reshape` returns: the dims are copied into the mirror
lists, the inner accelerator is called on them once, and the status is OK. -/
theorem Reshape_some {W Acc : Type} (env : Collaborators W Acc)
    (self : OpenCLCpuAdapterAcc Acc) (w : W) (inputs outputs : List Blob)
    (r : CallResult W Acc) (h : self.Reshape env w inputs outputs = some r) :
    ∃ acc, self.cpu_adapter_acc_ = some acc ∧
      inputs.length ≤ self.cpu_blob_in_.length ∧
      outputs.length ≤ self.cpu_blob_out_.length ∧
      r = { status := Status.OK
            self := { self with
                      cpu_blob_in_ := rewrite
                        (env.acc_Reshape acc w (copy_dims inputs self.cpu_blob_in_)
                          (copy_dims outputs self.cpu_blob_out_)).2.onInput 0
                        (copy_dims inputs self.cpu_blob_in_)
                      cpu_blob_out_ := rewrite
                        (env.acc_Reshape acc w (copy_dims inputs self.cpu_blob_in_)
                          (copy_dims outputs self.cpu_blob_out_)).2.onOutput 0
                        (copy_dims outputs self.cpu_blob_out_) }
            world := (env.acc_Reshape acc w (copy_dims inputs self.cpu_blob_in_)
                          (copy_dims outputs self.cpu_blob_out_)).1
            inputs := inputs, outputs := outputs
            calls := [Call.acc_Reshape (copy_dims inputs self.cpu_blob_in_)
                        (copy_dims outputs self.cpu_blob_out_)] } := by
  simp only [OpenCLCpuAdapterAcc.Reshape, Option.bind_eq_some] at h
  obtain ⟨cpu_in, h_in, cpu_out, h_out, acc, hacc, hr⟩ := h
  obtain ⟨l_in, e_in⟩ := reshape_loop_some _ _ _ h_in
  obtain ⟨l_out, e_out⟩ := reshape_loop_some _ _ _ h_out
  simp only [Option.some.injEq] at hr
  subst e_in e_out
  exact ⟨acc, hacc, l_in, l_out, hr.symm⟩

theorem Reshape_defined {W Acc : Type} (env : Collaborators W Acc)
    (self : OpenCLCpuAdapterAcc Acc) (w : W) (inputs outputs : List Blob) (acc : Acc)
    (hacc : self.cpu_adapter_acc_ = some acc)
    (hin : inputs.length ≤ self.cpu_blob_in_.length)
    (hout : outputs.length ≤ self.cpu_blob_out_.length) :
    ∃ r, self.Reshape env w inputs outputs = some r := by
  simp [OpenCLCpuAdapterAcc.Reshape, reshape_loop_defined _ _ hin, reshape_loop_defined _ _ hout,
    hacc]

/-! ### `Forward` -/

/-- What a defined call of `Forward` returns. -/
theorem Forward_some {W Acc : Type} (env : Collaborators W Acc)
    (self : OpenCLCpuAdapterAcc Acc) (w : W) (inputs outputs : List Blob)
    (r : CallResult W Acc) (h : self.Forward env w inputs outputs = some r) :
    ∃ (ocl : OpenCLContext) (acc : Acc) (w1 : W),
      self.ocl_context_ = some ocl ∧ self.cpu_adapter_acc_ = some acc ∧
      inputs.length ≤ self.cpu_blob_in_.length ∧
      outputs.length ≤ self.cpu_blob_out_.length ∧
      (∀ k b, k < inputs.length → self.cpu_blob_in_[k]? = some b → dims_in_range b) ∧
      (∀ k b, k < outputs.length → r.self.cpu_blob_out_[k]? = some b → dims_in_range b) ∧
      r.status = Status.OK ∧
      r.self = { self with
                 cpu_blob_in_ := rewrite
                   (env.acc_Forward acc w1 self.cpu_blob_in_ self.cpu_blob_out_).2.onInput 0
                   self.cpu_blob_in_
                 cpu_blob_out_ := rewrite
                   (env.acc_Forward acc w1 self.cpu_blob_in_ self.cpu_blob_out_).2.onOutput 0
                   self.cpu_blob_out_ } ∧
      r.inputs = inputs ∧
      r.outputs = copy_dims r.self.cpu_blob_out_ outputs ∧
      r.calls = protocol ocl.command_queue inputs self.cpu_blob_in_ self.cpu_blob_out_
                  r.outputs r.self.cpu_blob_out_ := by
  simp only [OpenCLCpuAdapterAcc.Forward, Option.bind_eq_some] at h
  obtain ⟨ocl, hocl, s1, h1, acc, hacc, s2, h2, hr⟩ := h
  simp only [Option.some.injEq] at hr
  obtain ⟨l_in, b_in, c_in, r_in⟩ := forward_input_loop_some env _ _ _ _ _ _ h1
  obtain ⟨l_out, b_out, c_out, r_out⟩ := forward_output_loop_some env _ _ _ _ _ _ h2
  simp only [length_rewrite] at l_out
  refine ⟨ocl, acc, s1.world, hocl, hacc, l_in, l_out, r_in, ?_, ?_, ?_, ?_, ?_, ?_⟩
  · subst hr
    exact r_out
  · subst hr
    rfl
  · subst hr
    rfl
  · subst hr
    exact b_in
  · subst hr
    exact b_out
  · subst hr
    simp only [c_out, c_in, b_out, protocol, List.nil_append]

theorem Forward_defined {W Acc : Type} (env : Collaborators W Acc)
    (self : OpenCLCpuAdapterAcc Acc) (w : W) (inputs outputs : List Blob)
    (ocl : OpenCLContext) (acc : Acc)
    (hctx : self.ocl_context_ = some ocl) (hacc : self.cpu_adapter_acc_ = some acc)
    (hin : inputs.length ≤ self.cpu_blob_in_.length)
    (hout : outputs.length ≤ self.cpu_blob_out_.length)
    (hranks_in : ∀ k b, k < inputs.length → self.cpu_blob_in_[k]? = some b → dims_in_range b)
    (hranks_out : ∀ w1 k b, k < outputs.length →
      (rewrite (env.acc_Forward acc w1 self.cpu_blob_in_ self.cpu_blob_out_).2.onOutput 0
        self.cpu_blob_out_)[k]? = some b → dims_in_range b) :
    ∃ r, self.Forward env w inputs outputs = some r := by
  obtain ⟨s1, h1⟩ := forward_input_loop_defined env ocl.command_queue self.cpu_blob_in_ inputs w []
    hin hranks_in
  obtain ⟨s2, h2⟩ := forward_output_loop_defined env ocl.command_queue
    (rewrite (env.acc_Forward acc s1.world self.cpu_blob_in_ self.cpu_blob_out_).2.onOutput 0
      self.cpu_blob_out_) outputs
    (env.acc_Forward acc s1.world self.cpu_blob_in_ self.cpu_blob_out_).1
    (s1.calls ++ [Call.acc_Forward self.cpu_blob_in_ self.cpu_blob_out_])
    (by rw [length_rewrite]; exact hout) (hranks_out s1.world)
  simp [OpenCLCpuAdapterAcc.Forward, hctx, hacc, h1, h2]

/-! ### Sequences of calls -/

theorem map_copy_dims {β : Type} (g : Blob → β) (hg : ∀ b d, g (Blob.set_dims b d) = g b) :
    ∀ (src dst : List Blob), (copy_dims src dst).map g = dst.map g
  | [], dst => by simp [copy_dims]
  | _ :: _, [] => by simp [copy_dims]
  | a :: src, b :: dst => by simp [copy_dims, map_copy_dims g hg src dst, hg]

/-- What one defined call leaves of the adapter: the bindings and the number of
mirror blobs, and every field other than dims that the inner accelerator
leaves alone. -/
theorem apply_keeps {W Acc : Type} (env : Collaborators W Acc)
    (self : OpenCLCpuAdapterAcc Acc) (w : W) (op : Op) (s : OpenCLCpuAdapterAcc Acc × W)
    (h : op.apply env self w = some s) :
    s.1.cpu_blob_in_.length = self.cpu_blob_in_.length ∧
    s.1.cpu_blob_out_.length = self.cpu_blob_out_.length ∧
    s.1.cpu_adapter_acc_ = self.cpu_adapter_acc_ ∧
    s.1.ocl_context_ = self.ocl_context_ ∧
    s.1.impl_device_type_ = self.impl_device_type_ ∧
    s.1.impl_device_context_ = self.impl_device_context_ ∧
    ∀ (β : Type) (g : Blob → β), (∀ b d, g (Blob.set_dims b d) = g b) → InnerKeeps env g →
      s.1.cpu_blob_in_.map g = self.cpu_blob_in_.map g ∧
      s.1.cpu_blob_out_.map g = self.cpu_blob_out_.map g := by
  cases op with
  | Reshape inputs outputs =>
    simp only [Op.apply, Option.map_eq_some'] at h
    obtain ⟨r, hr, hs⟩ := h
    obtain ⟨acc, _, _, _, e⟩ := Reshape_some env self w inputs outputs r hr
    subst hs
    subst e
    refine ⟨by simp [length_rewrite, length_copy_dims], by simp [length_rewrite, length_copy_dims],
      rfl, rfl, rfl, rfl, ?_⟩
    intro β g hg hk
    constructor
    · show (rewrite _ 0 _).map g = _
      rw [map_rewrite _ g (fun i b => (hk acc w _ _ i b).1), map_copy_dims g hg]
    · show (rewrite _ 0 _).map g = _
      rw [map_rewrite _ g (fun i b => (hk acc w _ _ i b).2.1), map_copy_dims g hg]
  | Forward inputs outputs =>
    simp only [Op.apply, Option.map_eq_some'] at h
    obtain ⟨r, hr, hs⟩ := h
    obtain ⟨ocl, acc, w1, _, _, _, _, _, _, _, e, _, _, _⟩ := Forward_some env self w inputs outputs r hr
    subst hs
    rw [e]
    refine ⟨by simp [length_rewrite], by simp [length_rewrite], rfl, rfl, rfl, rfl, ?_⟩
    intro β g _ hk
    constructor
    · show (rewrite _ 0 _).map g = _
      rw [map_rewrite _ g (fun i b => (hk acc w1 _ _ i b).2.2.1)]
    · show (rewrite _ 0 _).map g = _
      rw [map_rewrite _ g (fun i b => (hk acc w1 _ _ i b).2.2.2)]
  | SupportDataFormat data_type dims_size =>
    simp only [Op.apply, Option.some.injEq] at h
    subst h
    exact ⟨rfl, rfl, rfl, rfl, rfl, rfl, fun _ _ _ _ => ⟨rfl, rfl⟩⟩

theorem run_keeps {W Acc : Type} (env : Collaborators W Acc) :
    ∀ (ops : List Op) (self : OpenCLCpuAdapterAcc Acc) (w : W) (s : OpenCLCpuAdapterAcc Acc × W),
      run env self w ops = some s →
      s.1.cpu_blob_in_.length = self.cpu_blob_in_.length ∧
      s.1.cpu_blob_out_.length = self.cpu_blob_out_.length ∧
      s.1.cpu_adapter_acc_ = self.cpu_adapter_acc_ ∧
      s.1.ocl_context_ = self.ocl_context_ ∧
      s.1.impl_device_type_ = self.impl_device_type_ ∧
      s.1.impl_device_context_ = self.impl_device_context_ ∧
      ∀ (β : Type) (g : Blob → β), (∀ b d, g (Blob.set_dims b d) = g b) → InnerKeeps env g →
        s.1.cpu_blob_in_.map g = self.cpu_blob_in_.map g ∧
        s.1.cpu_blob_out_.map g = self.cpu_blob_out_.map g
  | [], self, w, s, h => by
    simp only [run, Option.some.injEq] at h
    subst h
    exact ⟨rfl, rfl, rfl, rfl, rfl, rfl, fun _ _ _ _ => ⟨rfl, rfl⟩⟩
  | op :: ops, self, w, s, h => by
    simp only [run, Option.bind_eq_some] at h
    obtain ⟨s1, h1, h2⟩ := h
    obtain ⟨a1, a2, a3, a4, a5, a6, a7⟩ := apply_keeps env self w op s1 h1
    obtain ⟨b1, b2, b3, b4, b5, b6, b7⟩ := run_keeps env ops s1.1 s1.2 s h2
    refine ⟨by omega, by omega, b3.trans a3, b4.trans a4, b5.trans a5, b6.trans a6, ?_⟩
    intro β g hg hk
    exact ⟨((b7 β g hg hk).1).trans ((a7 β g hg hk).1), ((b7 β g hg hk).2).trans ((a7 β g hg hk).2)⟩

theorem run_append {W Acc : Type} (env : Collaborators W Acc) :
    ∀ (ops1 ops2 : List Op) (self : OpenCLCpuAdapterAcc Acc) (w : W),
      run env self w (ops1 ++ ops2)
        = (run env self w ops1).bind fun s => run env s.1 s.2 ops2
  | [], ops2, self, w => by simp [run]
  | op :: ops1, ops2, self, w => by
    simp only [List.cons_append, run]
    cases h : op.apply env self w with
    | none => simp
    | some s => simp [run_append env ops1 ops2 s.1 s.2]

/-- A sequence of `Reshape` calls with lists no longer than the mirror lists is
defined. -/
theorem run_reshapes_defined {W Acc : Type} (env : Collaborators W Acc) :
    ∀ (calls : List (List Blob × List Blob)) (self : OpenCLCpuAdapterAcc Acc) (w : W) (acc : Acc),
      self.cpu_adapter_acc_ = some acc →
      (∀ c ∈ calls, c.1.length = self.cpu_blob_in_.length ∧
        c.2.length = self.cpu_blob_out_.length) →
      ∃ s, run env self w (calls.map fun c => Op.Reshape c.1 c.2) = some s
  | [], self, w, _, _, _ => ⟨(self, w), rfl⟩
  | c :: calls, self, w, acc, hacc, hlen => by
    obtain ⟨h1, h2⟩ := hlen c (List.mem_cons_self _ _)
    obtain ⟨r, hr⟩ := Reshape_defined env self w c.1 c.2 acc hacc (by omega) (by omega)
    have happ : (Op.Reshape c.1 c.2).apply env self w = some (r.self, r.world) := by
      simp [Op.apply, hr]
    obtain ⟨k1, k2, k3, _⟩ := apply_keeps env self w _ _ happ
    obtain ⟨s, hs⟩ := run_reshapes_defined env calls r.self r.world acc (by rw [k3, hacc])
      (by
        intro c2 hc2
        obtain ⟨g1, g2⟩ := hlen c2 (List.mem_cons_of_mem _ hc2)
        exact ⟨by rw [g1]; exact k1.symm, by rw [g2]; exact k2.symm⟩)
    exact ⟨s, by simp [run, happ, hs]⟩

/-! ### The claims about `Init` -/

/-- C5: on an Unbound adapter (no inner accelerator, no mirror blobs) `Init`
returns, for every context, parameters and blob lists, the non-OK status with
code TNNERR_OPENCL_ACC_INIT_ERROR; both mirror lists are still empty, no
collaborator is called (so the inner accelerator is not) and the world is
untouched. -/
theorem Init_on_unbound_adapter_fails {W Acc : Type} (env : Collaborators W Acc)
    (self : OpenCLCpuAdapterAcc Acc) (w : W) (context : Option Context) (param : LayerParam)
    (resource : LayerResource) (inputs outputs : List Blob)
    (hacc : self.cpu_adapter_acc_ = none)
    (hin : self.cpu_blob_in_ = []) (hout : self.cpu_blob_out_ = []) :
    ∃ r, self.Init env w context param resource inputs outputs = some r ∧
      r.status.code = StatusCode.TNNERR_OPENCL_ACC_INIT_ERROR ∧
      r.status.code ≠ StatusCode.TNN_OK ∧
      r.self.cpu_blob_in_ = [] ∧ r.self.cpu_blob_out_ = [] ∧
      r.self.cpu_adapter_acc_ = none ∧
      r.calls = [] ∧ r.world = w := by
  refine ⟨_, Init_of_unbound env self w context param resource inputs outputs hacc, rfl, ?_,
    hin, hout, hacc, rfl, rfl⟩
  simp

/-- Witness of C5: the adapter built for a layer type no candidate offers. -/
theorem Init_on_unbound_adapter_fails_witness :
    ∃ r, Example.unbound.Init Example.env 0 (some (Context.opencl Example.ocl)) 0 0
        [Example.x] [Example.y] = some r ∧
      r.status.code = StatusCode.TNNERR_OPENCL_ACC_INIT_ERROR ∧
      r.status.code ≠ StatusCode.TNN_OK ∧
      r.self.cpu_blob_in_ = [] ∧ r.self.cpu_blob_out_ = [] ∧
      r.self.cpu_adapter_acc_ = none ∧
      r.calls = [] ∧ r.world = 0 :=
  Init_on_unbound_adapter_fails Example.env Example.unbound 0 (some (Context.opencl Example.ocl))
    0 0 [Example.x] [Example.y] rfl rfl rfl

/-- C6: on a Bound-uninitialized adapter (inner accelerator present, no mirror
blobs yet) `Init` with a context that is not an OpenCL context (a null pointer
included) returns the non-OK status with code TNNERR_NULL_PARAM; both mirror
lists are still empty and the only collaborator called is the base class
`AbstractLayerAcc::Init`: the inner accelerator's `Init` is not invoked. -/
theorem Init_with_foreign_context_fails {W Acc : Type} (env : Collaborators W Acc)
    (self : OpenCLCpuAdapterAcc Acc) (w : W) (context : Option Context) (param : LayerParam)
    (resource : LayerResource) (inputs outputs : List Blob) (acc : Acc)
    (hacc : self.cpu_adapter_acc_ = some acc)
    (hin : self.cpu_blob_in_ = []) (hout : self.cpu_blob_out_ = [])
    (hctx : dynamic_cast_OpenCLContext context = none) :
    ∃ r, self.Init env w context param resource inputs outputs = some r ∧
      r.status.code = StatusCode.TNNERR_NULL_PARAM ∧
      r.status.code ≠ StatusCode.TNN_OK ∧
      r.self.cpu_blob_in_ = [] ∧ r.self.cpu_blob_out_ = [] ∧
      r.calls = [Call.AbstractLayerAcc_Init context inputs outputs] ∧
      ∀ c ins outs, Call.acc_Init c ins outs ∉ r.calls := by
  refine ⟨_, Init_of_foreign_context env self w context param resource inputs outputs acc hacc
    hctx, rfl, ?_, hin, hout, rfl, ?_⟩
  · simp
  · intro c ins outs
    simp

/-- Witness of C6: the bound adapter and the context of a CPU device. -/
theorem Init_with_foreign_context_fails_witness :
    ∃ r, Example.bound.Init Example.env 0 (some (Context.foreign 0)) 0 0
        [Example.x] [Example.y] = some r ∧
      r.status.code = StatusCode.TNNERR_NULL_PARAM ∧
      r.status.code ≠ StatusCode.TNN_OK ∧
      r.self.cpu_blob_in_ = [] ∧ r.self.cpu_blob_out_ = [] ∧
      r.calls = [Call.AbstractLayerAcc_Init (some (Context.foreign 0)) [Example.x] [Example.y]] ∧
      ∀ c ins outs, Call.acc_Init c ins outs ∉ r.calls :=
  Init_with_foreign_context_fails Example.env Example.bound 0 (some (Context.foreign 0)) 0 0
    [Example.x] [Example.y] 1 rfl rfl rfl rfl

/-- C2 as stated fails: after `Init` the mirror input of the example adapter is
in the planar layout, not in the unresolved one, because the inner
accelerator's `Init` resolved it. -/
theorem Init_mirror_format_resolved_by_inner :
    (Example.bound.Init Example.env 0 (some (Context.opencl Example.ocl)) 0 0
        [Example.x] [Example.y]).map
      (fun r => (r.status.code, r.self.cpu_blob_in_.map fun b => b.desc.data_format))
      = some (StatusCode.TNN_OK, [DataFormat.DATA_FORMAT_NCHW]) ∧
    DataFormat.DATA_FORMAT_NCHW ≠ DataFormat.DATA_FORMAT_AUTO := by
  constructor
  · decide
  · decide

/-- C2, amended: on a Bound-uninitialized adapter `Init` with an OpenCL context
returns OK and creates one mirror blob per device blob, in order: the lists
`cpu_in` and `cpu_out` handed to the inner accelerator's `Init` have the lengths
of the device lists and at every index the dims of the device blob, the
selected backend domain and the unresolved layout DATA_FORMAT_AUTO.  After
`Init` the mirror lists still have those lengths, and each mirror blob is the
created one as rewritten by the inner accelerator's `Init`. -/
theorem Init_creates_mirror_blobs {W Acc : Type} (env : Collaborators W Acc)
    (self : OpenCLCpuAdapterAcc Acc) (w : W) (context : Option Context) (param : LayerParam)
    (resource : LayerResource) (inputs outputs : List Blob) (acc : Acc) (ocl : OpenCLContext)
    (d : DeviceType)
    (hacc : self.cpu_adapter_acc_ = some acc)
    (hdev : self.impl_device_type_ = some d)
    (hin : self.cpu_blob_in_ = []) (hout : self.cpu_blob_out_ = [])
    (hctx : dynamic_cast_OpenCLContext context = some ocl) :
    ∃ (r : CallResult W Acc) (cpu_in cpu_out : List Blob) (w1 : W),
      self.Init env w context param resource inputs outputs = some r ∧
      r.status = Status.OK ∧
      r.calls = [Call.AbstractLayerAcc_Init context inputs outputs,
                 Call.acc_Init self.impl_device_context_ cpu_in cpu_out] ∧
      cpu_in.length = inputs.length ∧ cpu_out.length = outputs.length ∧
      r.inputs.length = inputs.length ∧ r.outputs.length = outputs.length ∧
      (∀ (i : Nat) (m : Blob), cpu_in[i]? = some m → ∃ b : Blob, r.inputs[i]? = some b ∧
        m.desc.dims = b.desc.dims ∧ m.desc.device_type = d ∧
        m.desc.data_format = DataFormat.DATA_FORMAT_AUTO) ∧
      (∀ (i : Nat) (m : Blob), cpu_out[i]? = some m → ∃ b : Blob, r.outputs[i]? = some b ∧
        m.desc.dims = b.desc.dims ∧ m.desc.device_type = d ∧
        m.desc.data_format = DataFormat.DATA_FORMAT_AUTO) ∧
      r.self.cpu_blob_in_ = rewrite
        (env.acc_Init acc w1 self.impl_device_context_ param resource cpu_in cpu_out).2.onInput 0
        cpu_in ∧
      r.self.cpu_blob_out_ = rewrite
        (env.acc_Init acc w1 self.impl_device_context_ param resource cpu_in cpu_out).2.onOutput 0
        cpu_out ∧
      r.self.cpu_blob_in_.length = inputs.length ∧
      r.self.cpu_blob_out_.length = outputs.length := by
  obtain ⟨r, hr⟩ := Init_defined env self w context param resource inputs outputs acc ocl d
    hacc hctx hdev
  obtain ⟨c_in, c_out, w1, h1, h2, h3, h4, h5, h6, h7, h8⟩ :=
    Init_some env self w context param resource inputs outputs acc ocl r hacc hctx hr
  obtain ⟨m_in, m_out⟩ := h6 d hdev
  have key : ∀ (cs bs : List Blob),
      cs.map (fun b => b.desc) = bs.map (fun b => mirror_desc d b.desc) →
      ∀ (i : Nat) (m : Blob), cs[i]? = some m → ∃ b : Blob, bs[i]? = some b ∧
        m.desc.dims = b.desc.dims ∧ m.desc.device_type = d ∧
        m.desc.data_format = DataFormat.DATA_FORMAT_AUTO := by
    intro cs bs hmap i m hm
    have e := congrArg (fun l => l[i]?) hmap
    simp only [List.getElem?_map, hm, Option.map_some'] at e
    cases hb : bs[i]? with
    | none => simp [hb] at e
    | some b =>
      simp only [hb, Option.map_some', Option.some.injEq] at e
      exact ⟨b, rfl, by rw [e]; rfl, by rw [e]; rfl, by rw [e]; rfl⟩
  rw [hin, hout] at h7 h8
  simp only [List.nil_append] at h7 h8
  refine ⟨r, c_in, c_out, w1, hr, h1, h7, h4, h5, ?_, ?_, key _ _ m_in, key _ _ m_out, ?_, ?_,
    ?_, ?_⟩
  · rw [h2, length_rewrite]
  · rw [h3, length_rewrite]
  · rw [h8]
  · rw [h8]
  · rw [h8]
    simp [length_rewrite, h4]
  · rw [h8]
    simp [length_rewrite, h5]

/-- Witness of the amended C2: `Init` of the bound example adapter. -/
theorem Init_creates_mirror_blobs_witness :
    ∃ (r : CallResult Nat Nat) (cpu_in cpu_out : List Blob) (w1 : Nat),
      Example.bound.Init Example.env 0 (some (Context.opencl Example.ocl)) 0 0
        [Example.x] [Example.y] = some r ∧
      r.status = Status.OK ∧
      r.calls = [Call.AbstractLayerAcc_Init (some (Context.opencl Example.ocl))
                   [Example.x] [Example.y],
                 Call.acc_Init Example.bound.impl_device_context_ cpu_in cpu_out] ∧
      cpu_in.length = [Example.x].length ∧ cpu_out.length = [Example.y].length ∧
      r.inputs.length = [Example.x].length ∧ r.outputs.length = [Example.y].length ∧
      (∀ (i : Nat) (m : Blob), cpu_in[i]? = some m → ∃ b : Blob, r.inputs[i]? = some b ∧
        m.desc.dims = b.desc.dims ∧ m.desc.device_type = DeviceType.DEVICE_NAIVE ∧
        m.desc.data_format = DataFormat.DATA_FORMAT_AUTO) ∧
      (∀ (i : Nat) (m : Blob), cpu_out[i]? = some m → ∃ b : Blob, r.outputs[i]? = some b ∧
        m.desc.dims = b.desc.dims ∧ m.desc.device_type = DeviceType.DEVICE_NAIVE ∧
        m.desc.data_format = DataFormat.DATA_FORMAT_AUTO) ∧
      r.self.cpu_blob_in_ = rewrite
        (Example.env.acc_Init 1 w1 Example.bound.impl_device_context_ 0 0 cpu_in cpu_out).2.onInput
        0 cpu_in ∧
      r.self.cpu_blob_out_ = rewrite
        (Example.env.acc_Init 1 w1 Example.bound.impl_device_context_ 0 0 cpu_in cpu_out).2.onOutput
        0 cpu_out ∧
      r.self.cpu_blob_in_.length = [Example.x].length ∧
      r.self.cpu_blob_out_.length = [Example.y].length :=
  Init_creates_mirror_blobs Example.env Example.bound 0 (some (Context.opencl Example.ocl)) 0 0
    [Example.x] [Example.y] 1 Example.ocl DeviceType.DEVICE_NAIVE rfl rfl rfl rfl rfl

/-! ### The claims about `Reshape` and `Forward` -/

theorem protocol_inputs_device_to_host (q : Nat) : ∀ (ds ms : List Blob) (c : Call),
    c ∈ (List.zipWith (protocol_input q) ds ms).flatten → c.is_device_to_host = true
  | [], _, c, h => by simp at h
  | _ :: _, [], c, h => by simp at h
  | d :: ds, m :: ms, c, h => by
    simp only [List.zipWith_cons_cons, List.flatten_cons, List.mem_append] at h
    rcases h with h | h
    · unfold protocol_input at h
      split at h
      · simp only [List.mem_singleton] at h
        subst h
        rfl
      · simp only [List.mem_cons, List.mem_singleton, List.not_mem_nil, or_false] at h
        rcases h with h | h
        · subst h
          rfl
        · subst h
          rfl
    · exact protocol_inputs_device_to_host q ds ms c h

theorem protocol_outputs_host_to_device (q : Nat) : ∀ (ds ms : List Blob) (c : Call),
    c ∈ (List.zipWith (protocol_output q) ds ms).flatten → c.is_host_to_device = true
  | [], _, c, h => by simp at h
  | _ :: _, [], c, h => by simp at h
  | d :: ds, m :: ms, c, h => by
    simp only [List.zipWith_cons_cons, List.flatten_cons, List.mem_append] at h
    rcases h with h | h
    · unfold protocol_output at h
      split at h
      · simp only [List.mem_singleton] at h
        subst h
        rfl
      · simp only [List.mem_cons, List.mem_singleton, List.not_mem_nil, or_false] at h
        rcases h with h | h
        · subst h
          rfl
        · subst h
          rfl
    · exact protocol_outputs_host_to_device q ds ms c h

/-- C3: on an initialised adapter whose inner accelerator's `Reshape` does not
rewrite dims, after every `Reshape` call with lists of the lengths of the
mirror lists - the last one of any sequence of such calls, with whatever dims
the earlier calls had - the dims of the i-th mirror input are the dims of the
i-th device input of that call, and likewise for the outputs.  A `Forward`
after it does not write mirror blobs in the adapter's own steps: the mirror
lists after `Forward` are the ones before it as rewritten by the inner
accelerator's `Forward`, so their dims are still those of the last `Reshape`
when that inner call leaves dims alone. -/
theorem Reshape_synchronizes_mirror_dims {W Acc : Type} (env : Collaborators W Acc)
    (self : OpenCLCpuAdapterAcc Acc) (w : W) (acc : Acc)
    (calls : List (List Blob × List Blob)) (inputs outputs : List Blob)
    (hkeep : InnerReshapeKeepsDims env)
    (hacc : self.cpu_adapter_acc_ = some acc)
    (hcalls : ∀ c ∈ calls, c.1.length = self.cpu_blob_in_.length ∧
      c.2.length = self.cpu_blob_out_.length)
    (hin : inputs.length = self.cpu_blob_in_.length)
    (hout : outputs.length = self.cpu_blob_out_.length) :
    ∃ s, run env self w ((calls.map fun c => Op.Reshape c.1 c.2) ++ [Op.Reshape inputs outputs])
        = some s ∧
      s.1.cpu_blob_in_.map (fun b => b.desc.dims) = inputs.map (fun b => b.desc.dims) ∧
      s.1.cpu_blob_out_.map (fun b => b.desc.dims) = outputs.map (fun b => b.desc.dims) ∧
      ∀ (w2 : W) (ins2 outs2 : List Blob) (r2 : CallResult W Acc),
        s.1.Forward env w2 ins2 outs2 = some r2 →
        ∃ w3,
          r2.self.cpu_blob_in_ = rewrite
            (env.acc_Forward acc w3 s.1.cpu_blob_in_ s.1.cpu_blob_out_).2.onInput 0
            s.1.cpu_blob_in_ ∧
          r2.self.cpu_blob_out_ = rewrite
            (env.acc_Forward acc w3 s.1.cpu_blob_in_ s.1.cpu_blob_out_).2.onOutput 0
            s.1.cpu_blob_out_ ∧
          ((∀ i b,
              ((env.acc_Forward acc w3 s.1.cpu_blob_in_ s.1.cpu_blob_out_).2.onInput i b).desc.dims
                = b.desc.dims ∧
              ((env.acc_Forward acc w3 s.1.cpu_blob_in_ s.1.cpu_blob_out_).2.onOutput i b).desc.dims
                = b.desc.dims) →
            r2.self.cpu_blob_in_.map (fun b => b.desc.dims) = inputs.map (fun b => b.desc.dims) ∧
            r2.self.cpu_blob_out_.map (fun b => b.desc.dims)
              = outputs.map (fun b => b.desc.dims)) := by
  obtain ⟨s1, hs1⟩ := run_reshapes_defined env calls self w acc hacc hcalls
  obtain ⟨k1, k2, k3, _⟩ := run_keeps env _ self w s1 hs1
  have hacc1 : s1.1.cpu_adapter_acc_ = some acc := by rw [k3, hacc]
  obtain ⟨r, hr⟩ := Reshape_defined env s1.1 s1.2 inputs outputs acc hacc1 (by omega) (by omega)
  obtain ⟨acc2, _, _, _, e⟩ := Reshape_some env s1.1 s1.2 inputs outputs r hr
  have d_in : r.self.cpu_blob_in_.map (fun b => b.desc.dims)
      = inputs.map (fun b => b.desc.dims) := by
    rw [e]
    show (rewrite _ 0 _).map _ = _
    rw [map_rewrite _ _ (fun i b => (hkeep acc2 s1.2 _ _ i b).1),
      map_dims_copy_dims _ _ (by omega)]
  have d_out : r.self.cpu_blob_out_.map (fun b => b.desc.dims)
      = outputs.map (fun b => b.desc.dims) := by
    rw [e]
    show (rewrite _ 0 _).map _ = _
    rw [map_rewrite _ _ (fun i b => (hkeep acc2 s1.2 _ _ i b).2),
      map_dims_copy_dims _ _ (by omega)]
  refine ⟨(r.self, r.world), ?_, d_in, d_out, ?_⟩
  · rw [run_append, hs1]
    simp [run, Op.apply, hr]
  · intro w2 ins2 outs2 r2 h2
    obtain ⟨_, acc3, w3, _, hacc3, _, _, _, _, _, e3, _, _, _⟩ :=
      Forward_some env r.self w2 ins2 outs2 r2 h2
    have hacc4 : r.self.cpu_adapter_acc_ = some acc := by
      rw [e]
      exact hacc1
    rw [hacc4] at hacc3
    simp only [Option.some.injEq] at hacc3
    subst hacc3
    refine ⟨w3, by rw [e3], by rw [e3], ?_⟩
    intro hk
    constructor
    · rw [e3]
      show (rewrite _ 0 _).map _ = _
      rw [map_rewrite _ _ (fun i b => (hk i b).1)]
      exact d_in
    · rw [e3]
      show (rewrite _ 0 _).map _ = _
      rw [map_rewrite _ _ (fun i b => (hk i b).2)]
      exact d_out

/-- Witness of C3: two `Reshape` calls with different dims on the example adapter. -/
theorem Reshape_synchronizes_mirror_dims_witness :
    ∃ s, run Example.env Example.ready 4
        (([([Example.x], [Example.y])].map fun c => Op.Reshape c.1 c.2)
          ++ [Op.Reshape [Example.x2] [Example.y2]]) = some s ∧
      s.1.cpu_blob_in_.map (fun b => b.desc.dims) = [Example.x2].map (fun b => b.desc.dims) ∧
      s.1.cpu_blob_out_.map (fun b => b.desc.dims) = [Example.y2].map (fun b => b.desc.dims) ∧
      ∀ (w2 : Nat) (ins2 outs2 : List Blob) (r2 : CallResult Nat Nat),
        s.1.Forward Example.env w2 ins2 outs2 = some r2 →
        ∃ w3,
          r2.self.cpu_blob_in_ = rewrite
            (Example.env.acc_Forward 1 w3 s.1.cpu_blob_in_ s.1.cpu_blob_out_).2.onInput 0
            s.1.cpu_blob_in_ ∧
          r2.self.cpu_blob_out_ = rewrite
            (Example.env.acc_Forward 1 w3 s.1.cpu_blob_in_ s.1.cpu_blob_out_).2.onOutput 0
            s.1.cpu_blob_out_ ∧
          ((∀ i b,
              ((Example.env.acc_Forward 1 w3 s.1.cpu_blob_in_ s.1.cpu_blob_out_).2.onInput
                i b).desc.dims = b.desc.dims ∧
              ((Example.env.acc_Forward 1 w3 s.1.cpu_blob_in_ s.1.cpu_blob_out_).2.onOutput
                i b).desc.dims = b.desc.dims) →
            r2.self.cpu_blob_in_.map (fun b => b.desc.dims)
              = [Example.x2].map (fun b => b.desc.dims) ∧
            r2.self.cpu_blob_out_.map (fun b => b.desc.dims)
              = [Example.y2].map (fun b => b.desc.dims)) :=
  Reshape_synchronizes_mirror_dims Example.env Example.ready 4 1
    [([Example.x], [Example.y])] [Example.x2] [Example.y2]
    (fun _ _ _ _ _ _ => ⟨rfl, rfl⟩) rfl
    (by
      intro c hc
      simp only [List.mem_singleton] at hc
      subst hc
      exact ⟨rfl, rfl⟩)
    rfl rfl

/-- C7: the calls one `Forward` of an initialised adapter issues are exactly the
protocol of the specification: for each input in index order a device-to-host
conversion with the command queue of the OpenCL context, into the memory of
the mirror blob when the mirror blob is planar and otherwise into a scratch
buffer followed by the planar-to-packed transform into the mirror memory; then
one `Forward` of the inner accelerator over the mirror lists; then for each
output in index order a host-to-device conversion from the mirror memory when
the mirror blob is planar and otherwise the packed-to-planar transform into a
scratch buffer followed by the conversion from that buffer.  So every call
before the inner `Forward` moves an input to its mirror and every call after it
moves an output to the device.  This holds for every call that is defined, and
the call is defined when every mirror blob that is not planar has at least four
dims. -/
theorem Forward_calls_follow_protocol {W Acc : Type} (env : Collaborators W Acc)
    (self : OpenCLCpuAdapterAcc Acc) (w : W) (inputs outputs : List Blob)
    (ocl : OpenCLContext) (acc : Acc)
    (hctx : self.ocl_context_ = some ocl) (hacc : self.cpu_adapter_acc_ = some acc)
    (hin : inputs.length = self.cpu_blob_in_.length)
    (hout : outputs.length = self.cpu_blob_out_.length) :
    (∀ r, self.Forward env w inputs outputs = some r →
      r.calls = protocol ocl.command_queue inputs self.cpu_blob_in_ self.cpu_blob_out_
                  r.outputs r.self.cpu_blob_out_ ∧
      r.outputs = copy_dims r.self.cpu_blob_out_ outputs ∧
      (∃ w1, r.self.cpu_blob_out_ = rewrite
        (env.acc_Forward acc w1 self.cpu_blob_in_ self.cpu_blob_out_).2.onOutput 0
        self.cpu_blob_out_) ∧
      ∃ before after,
        r.calls = before ++ Call.acc_Forward self.cpu_blob_in_ self.cpu_blob_out_ :: after ∧
        (∀ c ∈ before, c.is_device_to_host = true) ∧
        (∀ c ∈ after, c.is_host_to_device = true)) ∧
    ((∀ b ∈ self.cpu_blob_in_, dims_in_range b) →
     (∀ w1, ∀ b ∈ rewrite
        (env.acc_Forward acc w1 self.cpu_blob_in_ self.cpu_blob_out_).2.onOutput 0
        self.cpu_blob_out_, dims_in_range b) →
     ∃ r, self.Forward env w inputs outputs = some r) := by
  constructor
  · intro r hr
    obtain ⟨ocl2, acc2, w1, hocl2, hacc2, _, _, _, _, _, e, _, ho, hc⟩ :=
      Forward_some env self w inputs outputs r hr
    rw [hctx] at hocl2
    rw [hacc] at hacc2
    simp only [Option.some.injEq] at hocl2 hacc2
    subst hocl2 hacc2
    refine ⟨hc, ho, ⟨w1, by rw [e]⟩,
      (List.zipWith (protocol_input ocl.command_queue) inputs self.cpu_blob_in_).flatten,
      (List.zipWith (protocol_output ocl.command_queue) r.outputs r.self.cpu_blob_out_).flatten,
      ?_, protocol_inputs_device_to_host _ _ _, protocol_outputs_host_to_device _ _ _⟩
    rw [hc]
    simp [protocol]
  · intro h1 h2
    exact Forward_defined env self w inputs outputs ocl acc hctx hacc (by omega) (by omega)
      (fun k b _ hb => h1 b (List.getElem?_mem hb))
      (fun w1 k b _ hb => h2 w1 b (List.getElem?_mem hb))

/-- Witness of C7: one `Forward` of the example adapter, whose mirror input is
planar and whose mirror output is not. -/
theorem Forward_calls_follow_protocol_witness :
    ∃ r, Example.ready.Forward Example.env 4 [Example.x] [Example.y] = some r ∧
      r.calls = protocol 5 [Example.x] [Example.mirror_x] [Example.mirror_y]
                  r.outputs r.self.cpu_blob_out_ := by
  have T := Forward_calls_follow_protocol Example.env Example.ready 4 [Example.x] [Example.y]
    Example.ocl 1 rfl rfl rfl rfl
  obtain ⟨r, hr⟩ := T.2 (by decide) (by
    intro w1
    show ∀ b ∈ [Blob.set_dims Example.mirror_y [1, 8, 56, 56]], dims_in_range b
    decide)
  exact ⟨r, hr, (T.1 r hr).1⟩

/-- C8: a defined `Forward` of an initialised adapter leaves on the descriptor of
the j-th device output the dims the j-th mirror output has after the inner
accelerator's `Forward` returned, for every j, changes no other field of the
device outputs and does not modify the device inputs.  The call is defined when
every mirror blob that is not planar has at least four dims. -/
theorem Forward_propagates_output_dims {W Acc : Type} (env : Collaborators W Acc)
    (self : OpenCLCpuAdapterAcc Acc) (w : W) (inputs outputs : List Blob)
    (ocl : OpenCLContext) (acc : Acc)
    (hctx : self.ocl_context_ = some ocl) (hacc : self.cpu_adapter_acc_ = some acc)
    (hin : inputs.length = self.cpu_blob_in_.length)
    (hout : outputs.length = self.cpu_blob_out_.length) :
    (∀ r, self.Forward env w inputs outputs = some r →
      (∃ w1, r.self.cpu_blob_out_ = rewrite
        (env.acc_Forward acc w1 self.cpu_blob_in_ self.cpu_blob_out_).2.onOutput 0
        self.cpu_blob_out_) ∧
      r.outputs.length = outputs.length ∧
      r.outputs.map (fun b => b.desc.dims) = r.self.cpu_blob_out_.map (fun b => b.desc.dims) ∧
      r.outputs.map Blob.frame = outputs.map Blob.frame ∧
      r.inputs = inputs) ∧
    ((∀ b ∈ self.cpu_blob_in_, dims_in_range b) →
     (∀ w1, ∀ b ∈ rewrite
        (env.acc_Forward acc w1 self.cpu_blob_in_ self.cpu_blob_out_).2.onOutput 0
        self.cpu_blob_out_, dims_in_range b) →
     ∃ r, self.Forward env w inputs outputs = some r) := by
  constructor
  · intro r hr
    obtain ⟨ocl2, acc2, w1, _, hacc2, _, _, _, _, _, e, hi, ho, _⟩ :=
      Forward_some env self w inputs outputs r hr
    rw [hacc] at hacc2
    simp only [Option.some.injEq] at hacc2
    subst hacc2
    have hlen : r.self.cpu_blob_out_.length = outputs.length := by
      rw [e]
      simp [length_rewrite, hout]
    refine ⟨⟨w1, by rw [e]⟩, ?_, ?_, ?_, hi⟩
    · rw [ho, length_copy_dims]
    · rw [ho, map_dims_copy_dims _ _ hlen]
    · rw [ho, map_frame_copy_dims]
  · intro h1 h2
    exact Forward_defined env self w inputs outputs ocl acc hctx hacc (by omega) (by omega)
      (fun k b _ hb => h1 b (List.getElem?_mem hb))
      (fun w1 k b _ hb => h2 w1 b (List.getElem?_mem hb))

/-- Witness of C8: the inner accelerator of the example sets the dims of its
output to 1, 8, 56, 56 in `Forward`; the device output has them afterwards. -/
theorem Forward_propagates_output_dims_witness :
    ∃ r, Example.ready.Forward Example.env 4 [Example.x] [Example.y] = some r ∧
      r.outputs.map (fun b => b.desc.dims) = [[1, 8, 56, 56]] ∧
      r.outputs.map Blob.frame = [Example.y].map Blob.frame ∧
      r.inputs = [Example.x] := by
  have T := Forward_propagates_output_dims Example.env Example.ready 4 [Example.x] [Example.y]
    Example.ocl 1 rfl rfl rfl rfl
  obtain ⟨r, hr⟩ := T.2 (by decide) (by
    intro w1
    show ∀ b ∈ [Blob.set_dims Example.mirror_y [1, 8, 56, 56]], dims_in_range b
    decide)
  obtain ⟨⟨w1, hm⟩, _, hd, hf, hi⟩ := T.1 r hr
  refine ⟨r, hr, ?_, hf, hi⟩
  rw [hd, hm]
  rfl

/-! ### Statuses -/

/-- C4 as stated fails: the inner accelerator of the example returns the error
status 1 from `Init`, `Reshape` and `Forward`, and the adapter returns OK from
all three. -/
theorem inner_error_status_is_dropped :
    (∀ w c p res ins outs, (Example.env.acc_Init 1 w c p res ins outs).2.status
      = Example.inner_error) ∧
    (∀ w ins outs, (Example.env.acc_Reshape 1 w ins outs).2.status = Example.inner_error) ∧
    (∀ w ins outs, (Example.env.acc_Forward 1 w ins outs).2.status = Example.inner_error) ∧
    Example.inner_error.code ≠ StatusCode.TNN_OK ∧
    (Example.bound.Init Example.env 0 (some (Context.opencl Example.ocl)) 0 0
        [Example.x] [Example.y]).map (fun r => r.status) = some Status.OK ∧
    (Example.ready.Reshape Example.env 4 [Example.x2] [Example.y2]).map (fun r => r.status)
      = some Status.OK ∧
    (Example.ready.Forward Example.env 4 [Example.x] [Example.y]).map (fun r => r.status)
      = some Status.OK := by
  refine ⟨fun _ _ _ _ _ _ => rfl, fun _ _ _ => rfl, fun _ _ _ => rfl, ?_, ?_, ?_, ?_⟩
  · decide
  · decide
  · decide
  · decide

/-- C4, amended: the status of the inner accelerator is discarded.  On a bound
adapter, `Init` with an OpenCL context, `Reshape` and `Forward` return OK
whenever they return, whatever the inner accelerator's call returned; they do
return when the adapter is initialised, the device lists are not longer than
the mirror lists and every mirror blob that is not planar has at least four
dims. -/
theorem calls_return_OK_whatever_the_inner_status {W Acc : Type} (env : Collaborators W Acc)
    (self : OpenCLCpuAdapterAcc Acc) (w : W) (context : Option Context) (param : LayerParam)
    (resource : LayerResource) (inputs outputs : List Blob) (acc : Acc) (ocl : OpenCLContext)
    (hacc : self.cpu_adapter_acc_ = some acc)
    (hctx : dynamic_cast_OpenCLContext context = some ocl) :
    (∀ r, self.Init env w context param resource inputs outputs = some r →
      r.status = Status.OK) ∧
    (∀ r, self.Reshape env w inputs outputs = some r → r.status = Status.OK) ∧
    (∀ r, self.Forward env w inputs outputs = some r → r.status = Status.OK) ∧
    (∀ d ocl0, self.impl_device_type_ = some d → self.ocl_context_ = some ocl0 →
      inputs.length ≤ self.cpu_blob_in_.length → outputs.length ≤ self.cpu_blob_out_.length →
      (∀ b ∈ self.cpu_blob_in_, dims_in_range b) →
      (∀ w1, ∀ b ∈ rewrite
        (env.acc_Forward acc w1 self.cpu_blob_in_ self.cpu_blob_out_).2.onOutput 0
        self.cpu_blob_out_, dims_in_range b) →
      (∃ r, self.Init env w context param resource inputs outputs = some r) ∧
      (∃ r, self.Reshape env w inputs outputs = some r) ∧
      (∃ r, self.Forward env w inputs outputs = some r)) := by
  refine ⟨?_, ?_, ?_, ?_⟩
  · intro r hr
    obtain ⟨_, _, _, h, _⟩ :=
      Init_some env self w context param resource inputs outputs acc ocl r hacc hctx hr
    exact h
  · intro r hr
    obtain ⟨_, _, _, _, e⟩ := Reshape_some env self w inputs outputs r hr
    rw [e]
  · intro r hr
    obtain ⟨_, _, _, _, _, _, _, _, _, h, _⟩ := Forward_some env self w inputs outputs r hr
    exact h
  · intro d ocl0 hdev hocl hin hout h1 h2
    exact ⟨Init_defined env self w context param resource inputs outputs acc ocl d hacc hctx hdev,
      Reshape_defined env self w inputs outputs acc hacc hin hout,
      Forward_defined env self w inputs outputs ocl0 acc hocl hacc hin hout
        (fun k b _ hb => h1 b (List.getElem?_mem hb))
        (fun w1 k b _ hb => h2 w1 b (List.getElem?_mem hb))⟩

/-- Witness of the amended C4: the three calls on the example adapter, whose
inner accelerator returns an error status from each. -/
theorem calls_return_OK_whatever_the_inner_status_witness :
    (∃ r, Example.ready.Init Example.env 4 (some (Context.opencl Example.ocl)) 0 0
        [Example.x] [Example.y] = some r ∧ r.status = Status.OK) ∧
    (∃ r, Example.ready.Reshape Example.env 4 [Example.x] [Example.y] = some r ∧
      r.status = Status.OK) ∧
    (∃ r, Example.ready.Forward Example.env 4 [Example.x] [Example.y] = some r ∧
      r.status = Status.OK) := by
  have T := calls_return_OK_whatever_the_inner_status Example.env Example.ready 4
    (some (Context.opencl Example.ocl)) 0 0 [Example.x] [Example.y] 1 Example.ocl rfl rfl
  obtain ⟨⟨r1, h1⟩, ⟨r2, h2⟩, ⟨r3, h3⟩⟩ := T.2.2.2 DeviceType.DEVICE_NAIVE Example.ocl rfl rfl
    (by decide) (by decide) (by decide) (by
      intro w1
      show ∀ b ∈ [Blob.set_dims Example.mirror_y [1, 8, 56, 56]], dims_in_range b
      decide)
  exact ⟨⟨r1, h1, T.1 r1 h1⟩, ⟨r2, h2, T.2.1 r2 h2⟩, ⟨r3, h3, T.2.2.1 r3 h3⟩⟩

/-! ### The mirror lists after `Init` -/

/-- C10 as stated fails: a second `Init` on the initialised example adapter, with
lists of the same lengths, returns OK and leaves two mirror inputs and two
mirror outputs where the first `Init` had left one of each. -/
theorem second_Init_appends_mirror_blobs :
    (Example.bound.Init Example.env 0 (some (Context.opencl Example.ocl)) 0 0
        [Example.x] [Example.y]).map
      (fun r => (r.status.code, r.self.cpu_blob_in_.length, r.self.cpu_blob_out_.length))
      = some (StatusCode.TNN_OK, 1, 1) ∧
    ((Example.bound.Init Example.env 0 (some (Context.opencl Example.ocl)) 0 0
        [Example.x] [Example.y]).bind fun r0 =>
      r0.self.Init Example.env r0.world (some (Context.opencl Example.ocl)) 0 0
        [Example.x] [Example.y]).map
      (fun r => (r.status.code, r.self.cpu_blob_in_.length, r.self.cpu_blob_out_.length))
      = some (StatusCode.TNN_OK, 2, 2) := by
  constructor
  · decide
  · decide

/-- C10, amended: once `Init` has succeeded on a Bound-uninitialized adapter with
device lists of lengths n and m, the mirror-input list has length n and the
mirror-output list length m, and they keep these lengths through every
sequence of `Reshape`, `Forward` and `SupportDataFormat` calls; every field
`g` of a blob other than its dims (the device domain and the layout among
them) that the inner accelerator leaves alone has, at every index, the value
it had after `Init`: the adapter itself writes only dims. -/
theorem mirror_lists_fixed_after_Init {W Acc : Type} (env : Collaborators W Acc)
    (self : OpenCLCpuAdapterAcc Acc) (w : W) (context : Option Context) (param : LayerParam)
    (resource : LayerResource) (inputs outputs : List Blob) (acc : Acc) (ocl : OpenCLContext)
    (d : DeviceType)
    (hacc : self.cpu_adapter_acc_ = some acc)
    (hdev : self.impl_device_type_ = some d)
    (hin : self.cpu_blob_in_ = []) (hout : self.cpu_blob_out_ = [])
    (hctx : dynamic_cast_OpenCLContext context = some ocl) :
    ∃ r0, self.Init env w context param resource inputs outputs = some r0 ∧
      r0.status = Status.OK ∧
      r0.self.cpu_blob_in_.length = inputs.length ∧
      r0.self.cpu_blob_out_.length = outputs.length ∧
      ∀ (ops : List Op) (s : OpenCLCpuAdapterAcc Acc × W),
        run env r0.self r0.world ops = some s →
        s.1.cpu_blob_in_.length = inputs.length ∧
        s.1.cpu_blob_out_.length = outputs.length ∧
        ∀ (β : Type) (g : Blob → β), (∀ b dims, g (Blob.set_dims b dims) = g b) →
          InnerKeeps env g →
          s.1.cpu_blob_in_.map g = r0.self.cpu_blob_in_.map g ∧
          s.1.cpu_blob_out_.map g = r0.self.cpu_blob_out_.map g := by
  obtain ⟨r0, hr0⟩ := Init_defined env self w context param resource inputs outputs acc ocl d
    hacc hctx hdev
  obtain ⟨c_in, c_out, w1, h1, _, _, h4, h5, _, _, h8⟩ :=
    Init_some env self w context param resource inputs outputs acc ocl r0 hacc hctx hr0
  have l_in : r0.self.cpu_blob_in_.length = inputs.length := by
    rw [h8]
    simp [length_rewrite, hin, h4]
  have l_out : r0.self.cpu_blob_out_.length = outputs.length := by
    rw [h8]
    simp [length_rewrite, hout, h5]
  refine ⟨r0, hr0, h1, l_in, l_out, ?_⟩
  intro ops s hs
  obtain ⟨k1, k2, _, _, _, _, k7⟩ := run_keeps env ops r0.self r0.world s hs
  exact ⟨by omega, by omega, k7⟩

/-- Witness of the amended C10: after `Init`, a `Reshape`, a `Forward`, a
capability query and another `Reshape` on the example adapter leave one mirror
input and one mirror output, with the device domain and the layout `Init` left. -/
theorem mirror_lists_fixed_after_Init_witness :
    ∃ r0 s, Example.bound.Init Example.env 0 (some (Context.opencl Example.ocl)) 0 0
        [Example.x] [Example.y] = some r0 ∧
      run Example.env r0.self r0.world
        [Op.Reshape [Example.x2] [Example.y2], Op.Forward [Example.x2] [Example.y2],
         Op.SupportDataFormat 0 4, Op.Reshape [Example.x] [Example.y]] = some s ∧
      s.1.cpu_blob_in_.length = 1 ∧ s.1.cpu_blob_out_.length = 1 ∧
      s.1.cpu_blob_in_.map (fun b => (b.desc.device_type, b.desc.data_format))
        = [(DeviceType.DEVICE_NAIVE, DataFormat.DATA_FORMAT_NCHW)] ∧
      s.1.cpu_blob_out_.map (fun b => (b.desc.device_type, b.desc.data_format))
        = [(DeviceType.DEVICE_NAIVE, DataFormat.DATA_FORMAT_AUTO)] := by
  obtain ⟨r0, hr0, _, _, _, hrun⟩ := mirror_lists_fixed_after_Init Example.env Example.bound 0
    (some (Context.opencl Example.ocl)) 0 0 [Example.x] [Example.y] 1 Example.ocl
    DeviceType.DEVICE_NAIVE rfl rfl rfl rfl rfl
  have e0 : Example.bound.Init Example.env 0 (some (Context.opencl Example.ocl)) 0 0
      [Example.x] [Example.y]
      = some { status := Status.OK, self := Example.ready, world := 4,
               inputs := [Example.x], outputs := [Example.y],
               calls := [Call.AbstractLayerAcc_Init (some (Context.opencl Example.ocl))
                           [Example.x] [Example.y],
                         Call.acc_Init (some (Context.foreign 0))
                           [Blob.mk (mirror_desc DeviceType.DEVICE_NAIVE Example.x.desc) ⟨1, 0⟩]
                           [Blob.mk (mirror_desc DeviceType.DEVICE_NAIVE Example.y.desc) ⟨2, 0⟩]] } :=
    rfl
  rw [e0] at hr0
  simp only [Option.some.injEq] at hr0
  subst hr0
  have hs : ∃ s, run Example.env Example.ready 4
      [Op.Reshape [Example.x2] [Example.y2], Op.Forward [Example.x2] [Example.y2],
       Op.SupportDataFormat 0 4, Op.Reshape [Example.x] [Example.y]] = some s := ⟨_, rfl⟩
  obtain ⟨s, hs⟩ := hs
  obtain ⟨l1, l2, hg⟩ := hrun _ s hs
  have hk := hg _ (fun b => (b.desc.device_type, b.desc.data_format)) (fun _ _ => rfl)
    (fun _ _ _ _ _ _ => ⟨rfl, rfl, rfl, rfl⟩)
  exact ⟨_, s, e0, hs, l1, l2, hk.1, hk.2⟩

end TNN
